import Mathlib

/-! # IEC 60870-5-101 link layer and session logic

A shallow embedding of `pkg/iec101/frame.go`, `pkg/iec101/asdu.go`,
`cmd/slave/main.go` and the receive loop of `cmd/master/main.go`.

Conventions of the embedding.

* A Go `byte` is a `Nat` below 256, a `uint16` a `Nat` below 65536, an `int16`
  an `Int` in `[-32768, 32767]` and an `int` an `Int` in `[-2^63, 2^63)`.
  Conversions that truncate in Go (`byte(x)`, `uint16(x)`, `int16(x)`) are
  written out with `%`, and `int` arithmetic that can overflow wraps
  (`wrapInt`).
* A `bufio.Reader` over a finite input is the list of bytes not yet read;
  `ReadByte` at the end of the input returns `io.EOF`.
* An `io.Writer` is the log of the `Write` calls made on it, oldest first; the
  wire carries the concatenation of the log.  The writer itself never fails.
* A Go run-time panic (index or slice bounds out of range) is the outcome
  `Outcome.panic`; it is not an `error` value and is not caught anywhere in the
  repository.
-/

namespace IEC101

/-! ## Errors and outcomes -/

/-- The `error` values the package creates or passes on, one constructor per
message (`fmt.Errorf` / `errors.New`) or sentinel (`io.EOF`,
`io.ErrUnexpectedEOF`). -/
inductive Err where
  | eof
  | unexpectedEOF
  | invalidEndChar (b : Nat)
  | checksumError
  | lengthMismatch (l1 l2 : Nat)
  | invalidSecondStart (b : Nat)
  | unknownStart (b : Nat)
  | frameTooLarge
  | asduTooShort
  | interrogationTooShort
  | setpointTooShort
deriving DecidableEq, Repr

/-- Result of running a Go function: a value, a returned `error`, or a run-time
panic. -/
inductive Outcome (α : Type) where
  | ok (a : α)
  | error (e : Err)
  | panic
deriving DecidableEq, Repr

/-! ## frame.go -/

def StartCharFixed : Nat := 0x10
def StartCharVariable : Nat := 0x68
def EndChar : Nat := 0x16
def SingleCharAck : Nat := 0xE5

/-- The Go struct `Frame`. -/
structure Frame where
  IsFixed : Bool
  IsSingleChar : Bool
  C : Nat
  A : Nat
  ALen : Int
  ASDU : List Nat
deriving DecidableEq, Repr

/-- The address bytes `Encode` appends: `byte(f.A)` when `f.ALen == 1`, otherwise
`byte(f.A), byte(f.A>>8)`.  The same `if`/`else` occurs in the fixed and in the
variable branch of `Encode`. -/
def addrBytes (A : Nat) (ALen : Int) : List Nat :=
  if ALen = 1 then [A % 256] else [A % 256, (A / 256) % 256]

/-- The value of a Go `int` expression whose exact result is `x`: `int` is 64 bits
wide and wraps in two's complement. -/
def wrapInt (x : Int) : Int :=
  (x + 9223372036854775808) % 18446744073709551616 - 9223372036854775808

/-- The value of `1 + f.ALen + len(f.ASDU)` in `Encode`, an `int` sum that wraps,
for `ALen = f.ALen` and `n = len(f.ASDU)`.  Every Go byte slice has fewer than
`2^62` elements (it occupies `len` bytes of memory, and on a 64-bit platform the
Go runtime allocates at most `2^48`), so the first branch is the one every
`f.ASDU` takes; a longer list is not a Go value, and for it the sum is left
exact. -/
def encodeLength (ALen : Int) (n : Nat) : Int :=
  if n < 4611686018427387904 then wrapInt (1 + ALen + n) else 1 + ALen + n

/-- The buffer `Frame.Encode` builds and hands to a single `w.Write`, or the
error it returns before writing anything. -/
def Frame.encodeBuf (f : Frame) : Outcome (List Nat) :=
  if f.IsSingleChar then
    .ok [SingleCharAck]
  else if f.IsFixed then
    let sum := f.C + (addrBytes f.A f.ALen).sum
    .ok ([StartCharFixed, f.C] ++ addrBytes f.A f.ALen ++ [sum % 256, EndChar])
  else
    let length : Int := encodeLength f.ALen f.ASDU.length
    if length > 255 then
      .error .frameTooLarge
    else
      let l : Nat := (length % 256).toNat
      let sum := f.C + (addrBytes f.A f.ALen).sum + f.ASDU.sum
      .ok ([StartCharVariable, l, l, StartCharVariable, f.C] ++ addrBytes f.A f.ALen
            ++ f.ASDU ++ [sum % 256, EndChar])

/-- A writer: the log of the `Write` calls made on it. -/
abbrev Port := List (List Nat)

/-- `(f *Frame) Encode(w io.Writer) error` on a writer that does not fail: the
returned error (if any) and the writer afterwards. -/
def Frame.Encode (f : Frame) (w : Port) : Option Err × Port :=
  match f.encodeBuf with
  | .ok buf => (none, w ++ [buf])
  | .error e => (some e, w)
  | .panic => (none, w)

/-- `io.ReadFull(r, make([]byte, n))`: `n` bytes, `io.EOF` when `n > 0` and
nothing is left, `io.ErrUnexpectedEOF` when fewer than `n` are left (they are
consumed). -/
def readFull (n : Nat) (r : List Nat) : Outcome (List Nat) × List Nat :=
  if n = 0 then (.ok [], r)
  else if r = [] then (.error .eof, [])
  else if r.length < n then (.error .unexpectedEOF, [])
  else (.ok (r.take n), r.drop n)

/-- The frame `&Frame{IsSingleChar: true}`: every other field has its zero
value. -/
def singleCharFrame : Frame :=
  { IsFixed := false, IsSingleChar := true, C := 0, A := 0, ALen := 0, ASDU := [] }

/-- The "Parse Body" part of `ReadFrame` (frame.go 196-209): `body[0]`,
then `body[1]`, `body[2:]` or `body[1:3]`, `body[3:]`; `body` has capacity
`len(body)`, so each of them panics when `body` is too short. -/
def parseBody (body : List Nat) (linkAddrLen : Int) : Outcome Frame :=
  match body with
  | [] => .panic
  | c :: rest =>
    if linkAddrLen = 1 then
      match rest with
      | b :: asdu =>
        .ok { IsFixed := false, IsSingleChar := false, C := c, A := b,
              ALen := linkAddrLen, ASDU := asdu }
      | [] => .panic
    else
      match rest with
      | b0 :: b1 :: asdu =>
        .ok { IsFixed := false, IsSingleChar := false, C := c, A := b0 + 256 * b1,
              ALen := linkAddrLen, ASDU := asdu }
      | _ => .panic

/-- The end of the fixed branch of `ReadFrame` (frame.go 123-145), after the
control byte `c` and the address `a` (bytes `aBytes`) have been read. -/
def readFixedTail (c a : Nat) (aBytes : List Nat) (linkAddrLen : Int) (r : List Nat) :
    Outcome Frame × List Nat :=
  match r with
  | [] => (.error .eof, [])
  | cs :: r =>
    match r with
    | [] => (.error .eof, [])
    | e :: r =>
      if e ≠ EndChar then (.error (.invalidEndChar e), r)
      else if (c + aBytes.sum) % 256 ≠ cs then (.error .checksumError, r)
      else (.ok { IsFixed := true, IsSingleChar := false, C := c, A := a,
                  ALen := linkAddrLen, ASDU := [] }, r)

/-- The end of the variable branch of `ReadFrame` (frame.go 174-209), after the
body has been read. -/
def readVariableTail (body : List Nat) (linkAddrLen : Int) (r : List Nat) :
    Outcome Frame × List Nat :=
  match r with
  | [] => (.error .eof, [])
  | cs :: r =>
    match r with
    | [] => (.error .eof, [])
    | e :: r =>
      if e ≠ EndChar then (.error (.invalidEndChar e), r)
      else if body.sum % 256 ≠ cs then (.error .checksumError, r)
      else (parseBody body linkAddrLen, r)

/-- `ReadFrame(r *bufio.Reader, linkAddrLen int) (*Frame, error)`: the outcome
and the bytes left unread. -/
def ReadFrame (r : List Nat) (linkAddrLen : Int) : Outcome Frame × List Nat :=
  match r with
  | [] => (.error .eof, [])
  | start :: r =>
    if start = SingleCharAck then (.ok singleCharFrame, r)
    else if start = StartCharFixed then
      match r with
      | [] => (.error .eof, [])
      | c :: r =>
        if linkAddrLen = 1 then
          match r with
          | [] => (.error .eof, [])
          | b :: r => readFixedTail c b [b] linkAddrLen r
        else
          match readFull 2 r with
          | (.ok b, r) => readFixedTail c (b.getD 0 0 + 256 * b.getD 1 0) b linkAddrLen r
          | (.error e, r) => (.error e, r)
          | (.panic, r) => (.panic, r)
    else if start = StartCharVariable then
      match r with
      | [] => (.error .eof, [])
      | l1 :: r =>
        match r with
        | [] => (.error .eof, [])
        | l2 :: r =>
          if l1 ≠ l2 then (.error (.lengthMismatch l1 l2), r)
          else
            match r with
            | [] => (.error .eof, [])
            | start2 :: r =>
              if start2 ≠ StartCharVariable then (.error (.invalidSecondStart start2), r)
              else
                match readFull l1 r with
                | (.ok body, r) => readVariableTail body linkAddrLen r
                | (.error e, r) => (.error e, r)
                | (.panic, r) => (.panic, r)
    else (.error (.unknownStart start), r)

/-! ## asdu.go -/

def TypeM_ME_NB_1 : Nat := 11
def TypeC_SE_NB_1 : Nat := 48
def TypeC_IC_NA_1 : Nat := 100

def CauseAct : Nat := 6
def CauseActCon : Nat := 7
def CauseActTerm : Nat := 10
def CauseInrogen : Nat := 20

/-- The Go struct `ASDU`. -/
structure ASDU where
  TypeID : Nat
  VSQ : Nat
  COT : Nat
  CommonAddr : Nat
  Data : List Nat
deriving DecidableEq, Repr

/-- `binary.Write(buf, binary.LittleEndian, v)` for a `uint16` `v`. -/
def putUint16 (v : Nat) : List Nat := [v % 256, (v / 256) % 256]

/-- `binary.LittleEndian.Uint16(b)` for the two bytes `b0`, `b1`:
`uint16(b0) | uint16(b1)<<8`. -/
def getUint16 (b0 b1 : Nat) : Nat := b0 + 256 * b1

/-- `uint16(v)` for an `int16` (or any `int`) `v`: the two's-complement
representation. -/
def toUint16 (v : Int) : Nat := (v % 65536).toNat

/-- `int16(u)` for a `uint16` `u`. -/
def toInt16 (u : Nat) : Int := if u % 65536 < 32768 then (u % 65536 : Nat) else (u % 65536 : Nat) - 65536

/-- `(a *ASDU) Encode() []byte`. -/
def ASDU.Encode (a : ASDU) : List Nat :=
  [a.TypeID, a.VSQ, a.COT] ++ putUint16 a.CommonAddr ++ a.Data

/-- `DecodeASDU(data []byte) (*ASDU, error)`.  The guard is `len(data) < 4`;
with `len(data) == 4` either `data[3:5]` panics (capacity 4) or `data[5:]`
does (capacity above 4), so the outcome does not depend on the capacity. -/
def DecodeASDU (data : List Nat) : Outcome ASDU :=
  if data.length < 4 then .error .asduTooShort
  else
    match data with
    | t :: v :: c :: a0 :: a1 :: rest =>
      .ok { TypeID := t, VSQ := v, COT := c, CommonAddr := getUint16 a0 a1, Data := rest }
    | _ => .panic

/-- `ParseInterrogation(data []byte) (ioa uint16, qoi byte, err error)`. -/
def ParseInterrogation (data : List Nat) : Nat × Nat × Option Err :=
  if data.length < 3 then (0, 0, some .interrogationTooShort)
  else (getUint16 (data.getD 0 0) (data.getD 1 0), data.getD 2 0, none)

/-- `EncodeInterrogation(ioa uint16, qoi byte) []byte`. -/
def EncodeInterrogation (ioa qoi : Nat) : List Nat :=
  putUint16 ioa ++ [qoi]

/-- `ParseSetpointScaled(data []byte) (ioa uint16, val int16, qos byte, err error)`. -/
def ParseSetpointScaled (data : List Nat) : Nat × Int × Nat × Option Err :=
  if data.length < 5 then (0, 0, 0, some .setpointTooShort)
  else (getUint16 (data.getD 0 0) (data.getD 1 0),
        toInt16 (getUint16 (data.getD 2 0) (data.getD 3 0)),
        data.getD 4 0, none)

/-- `EncodeMeasuredValueScaled(ioa uint16, val int16, qds byte) []byte`. -/
def EncodeMeasuredValueScaled (ioa : Nat) (val : Int) (qds : Nat) : List Nat :=
  putUint16 ioa ++ putUint16 (toUint16 val) ++ [qds]

/-! ## cmd/slave/main.go -/

namespace Slave

/-- The package-level variables `powerDrawn` and `powerLimitation` (both
`int16`). -/
structure State where
  powerDrawn : Int
  powerLimitation : Int
deriving DecidableEq, Repr

/-- The package-level variable `linkAddrLen = 2`. -/
def linkAddrLen : Int := 2

/-- `sendFixed(port, funcCode, linkAddr)`; an `Encode` error is only logged. -/
def sendFixed (port : Port) (funcCode linkAddr : Nat) : Port :=
  let c := funcCode &&& 0x0F
  let frame : Frame :=
    { IsFixed := true, IsSingleChar := false, C := c, A := linkAddr, ALen := linkAddrLen,
      ASDU := [] }
  (frame.Encode port).2

/-- `sendSingleChar(port, b)`: `port.Write([]byte{b})`. -/
def sendSingleChar (port : Port) (b : Nat) : Port :=
  port ++ [[b]]

/-- `sendASDU(port, linkAddr, typeID, cot, ca, data)`; an `Encode` error is only
logged. -/
def sendASDU (port : Port) (linkAddr typeID cot ca : Nat) (data : List Nat) : Port :=
  let asdu : ASDU := { TypeID := typeID, VSQ := 1, COT := cot, CommonAddr := ca, Data := data }
  let payload := asdu.Encode
  let frame : Frame :=
    { IsFixed := false, IsSingleChar := false, C := 8, A := linkAddr, ALen := linkAddrLen,
      ASDU := payload }
  (frame.Encode port).2

/-- `handleInterrogation(port, linkAddr, req)`; it reads the two point values
and leaves them as they are. -/
def handleInterrogation (st : State) (port : Port) (linkAddr : Nat) (req : ASDU) : Port :=
  match ParseInterrogation req.Data with
  | (_, _, some _) => port
  | (ioa, qoi, none) =>
    let port := sendASDU port linkAddr TypeC_IC_NA_1 CauseActCon req.CommonAddr
      (EncodeInterrogation ioa qoi)
    let port := sendASDU port linkAddr TypeM_ME_NB_1 CauseInrogen req.CommonAddr
      (EncodeMeasuredValueScaled 1 st.powerDrawn 0)
    let port := sendASDU port linkAddr TypeM_ME_NB_1 CauseInrogen req.CommonAddr
      (EncodeMeasuredValueScaled 2 st.powerLimitation 0)
    sendASDU port linkAddr TypeC_IC_NA_1 CauseActTerm req.CommonAddr
      (EncodeInterrogation ioa qoi)

/-- `handleSetpoint(port, linkAddr, req)`. -/
def handleSetpoint (st : State) (port : Port) (linkAddr : Nat) (req : ASDU) : State × Port :=
  match ParseSetpointScaled req.Data with
  | (_, _, _, some _) => (st, port)
  | (ioa, val, qos, none) =>
    let st := if ioa = 2 then { st with powerLimitation := val } else st
    (st, sendASDU port linkAddr TypeC_SE_NB_1 CauseActCon req.CommonAddr
      (EncodeMeasuredValueScaled ioa val qos))

/-- `handleFixedFrame(port, frame)`. -/
def handleFixedFrame (port : Port) (frame : Frame) : Port :=
  let fc := frame.C &&& 0x0F
  if fc = 0 then sendFixed port 0 frame.A
  else if fc = 9 then sendFixed port 0 frame.A
  else if fc = 10 ∨ fc = 11 then sendSingleChar port 0xE5
  else port

/-- `handleVariableFrame(port, frame)`; a panic of `DecodeASDU` is not
recovered. -/
def handleVariableFrame (st : State) (port : Port) (frame : Frame) : Outcome (State × Port) :=
  match DecodeASDU frame.ASDU with
  | .error _ => .ok (st, port)
  | .panic => .panic
  | .ok asdu =>
    if asdu.TypeID = TypeC_IC_NA_1 then .ok (st, handleInterrogation st port frame.A asdu)
    else if asdu.TypeID = TypeC_SE_NB_1 then .ok (handleSetpoint st port frame.A asdu)
    else .ok (st, port)

/-- One iteration of the `for` loop of `handleConnection`: the point values, the
port and the reader afterwards, or a panic, which ends the process. -/
def handleConnectionStep (st : State) (port : Port) (reader : List Nat) :
    Outcome (State × Port × List Nat) :=
  match ReadFrame reader linkAddrLen with
  | (.error _, r) => .ok (st, port, r)
  | (.panic, _) => .panic
  | (.ok frame, r) =>
    if frame.IsFixed then .ok (st, handleFixedFrame port frame, r)
    else
      match handleVariableFrame st port frame with
      | .ok (st, port) => .ok (st, port, r)
      | .error e => .error e
      | .panic => .panic

/-- The dispatch at the end of an iteration of `handleConnection`, once
`ReadFrame` has returned `frame`: `handleFixedFrame` when `frame.IsFixed`,
`handleVariableFrame` otherwise.  Only `handleSetpoint` assigns a point value. -/
def dispatch (st : State) (port : Port) (frame : Frame) : Outcome (State × Port) :=
  if frame.IsFixed then .ok (st, handleFixedFrame port frame)
  else handleVariableFrame st port frame

end Slave

/-! ## cmd/master/main.go -/

namespace Master

/-- The package-level variable `linkAddrLen = 2`. -/
def linkAddrLen : Int := 2

/-- What one iteration of the `for` loop of `readLoop` does with the result of
`ReadFrame`. -/
inductive LoopAction where
  /-- `msgChan <- frame`, then the next iteration. -/
  | deliver (frame : Frame)
  /-- `io.EOF`: sleep 100 ms, `continue`. -/
  | retry
  /-- `errorChan <- err; return`: the loop ends, and `main` receives `err` from
  `errorChan` and calls `log.Fatalf("Connection error: %v", err)`. -/
  | escalate (e : Err)
deriving DecidableEq, Repr

/-- One iteration of the `for` loop of `readLoop`, and the reader afterwards. -/
def readLoopStep (reader : List Nat) : Outcome LoopAction × List Nat :=
  match ReadFrame reader linkAddrLen with
  | (.error e, r) => if e ≠ .eof then (.ok (.escalate e), r) else (.ok .retry, r)
  | (.panic, r) => (.panic, r)
  | (.ok frame, r) => (.ok (.deliver frame), r)

/-- The package-level variable `linkAddr = uint16(1)`. -/
def linkAddr : Nat := 1

/-- The package-level variable `commonAddr = uint16(1)`. -/
def commonAddr : Nat := 1

/-- The master's `sendASDU(port, linkAddr, typeID, cot, ca, data)`; the result of
`Encode` is dropped. -/
def sendASDU (port : Port) (linkAddr typeID cot ca : Nat) (data : List Nat) : Port :=
  let asdu : ASDU := { TypeID := typeID, VSQ := 1, COT := cot, CommonAddr := ca, Data := data }
  let payload := asdu.Encode
  let frame : Frame :=
    { IsFixed := false, IsSingleChar := false, C := 0x43, A := linkAddr, ALen := linkAddrLen,
      ASDU := payload }
  (frame.Encode port).2

/-- `sendInterrogation(port, linkAddr, commonAddr)`. -/
def sendInterrogation (port : Port) (linkAddr commonAddr : Nat) : Port :=
  let payload := EncodeInterrogation 0 20
  sendASDU port linkAddr TypeC_IC_NA_1 CauseAct commonAddr payload

/-- The lines `handleFrame` logs, by what they report. -/
inductive Log where
  /-- `Master: Received Fixed Frame FC=%d`. -/
  | fixedFrame (fc : Nat)
  /-- `Master: Received Single Char 0xE5`. -/
  | singleChar
  /-- `ASDU Decode Error: %v`. -/
  | asduDecodeError (e : Err)
  /-- `Master: Received ASDU Type: %d (COT: %d)`. -/
  | asduReceived (typeID cot : Nat)
  /-- ` -> DATA: IOA=%d, Value=%d, Quality=%d`. -/
  | data (ioa : Nat) (val : Int) (qds : Nat)
  /-- ` -> Interrogation Activation CONFIRMED`. -/
  | interrogationConfirmed
  /-- ` -> Interrogation COMPLETED`. -/
  | interrogationCompleted
  /-- ` -> Setpoint Command CONFIRMED`. -/
  | setpointConfirmed
deriving DecidableEq, Repr

/-- `handleFrame(frame)`: the lines it logs, in order; a panic of `DecodeASDU`
is not recovered. -/
def handleFrame (frame : Frame) : Outcome (List Log) :=
  if frame.IsFixed then .ok [.fixedFrame (frame.C &&& 0x0F)]
  else if frame.IsSingleChar then .ok [.singleChar]
  else
    match DecodeASDU frame.ASDU with
    | .error e => .ok [.asduDecodeError e]
    | .panic => .panic
    | .ok asdu =>
      let seen := Log.asduReceived asdu.TypeID asdu.COT
      if asdu.TypeID = TypeM_ME_NB_1 then
        match ParseSetpointScaled asdu.Data with
        | (ioa, val, qds, _) => .ok [seen, .data ioa val qds]
      else if asdu.TypeID = TypeC_IC_NA_1 then
        if asdu.COT = CauseActCon then .ok [seen, .interrogationConfirmed]
        else if asdu.COT = CauseActTerm then .ok [seen, .interrogationCompleted]
        else .ok [seen]
      else if asdu.TypeID = TypeC_SE_NB_1 then
        if asdu.COT = CauseActCon then .ok [seen, .setpointConfirmed]
        else .ok [seen]
      else .ok [seen]

/-- `sendSetpoint(port, linkAddr, commonAddr, ioa, val)`. -/
def sendSetpoint (port : Port) (linkAddr commonAddr ioa : Nat) (val : Int) : Port :=
  let payload := EncodeMeasuredValueScaled ioa val 0
  sendASDU port linkAddr TypeC_SE_NB_1 CauseAct commonAddr payload

/-- The case the `select` in the `for` loop of `main` takes. -/
inductive SelectCase where
  /-- `case <-ticker.C`, with `rand.Intn(5000)` returning `n`. -/
  | tick (n : Nat)
  /-- `case frame := <-msgChan`. -/
  | msg (frame : Frame)
  /-- `case err := <-errorChan`. -/
  | err (e : Err)
deriving DecidableEq, Repr

/-- What one pass through the `select` of `main` does. -/
inductive SelectResult where
  /-- The ticker case: `val` is logged and `sendSetpoint` leaves the port as
  `port`; the `for` loop goes on. -/
  | sentSetpoint (val : Int) (port : Port)
  /-- The `msgChan` case: `handleFrame` has logged `lines`; the `for` loop goes
  on. -/
  | handled (lines : List Log)
  /-- The `errorChan` case: `log.Fatalf("Connection error: %v", err)` logs the
  error and exits the process with status 1. -/
  | fatal (e : Err)
deriving DecidableEq, Repr

/-- One pass through the `select` of `main`, taking the case `c`; a panic of
`handleFrame` is not recovered. -/
def mainSelect (port : Port) (c : SelectCase) : Outcome SelectResult :=
  match c with
  | .tick n =>
    let val := toInt16 (toUint16 (20000 + (n : Int)))
    .ok (.sentSetpoint val (sendSetpoint port linkAddr commonAddr 2 val))
  | .msg frame =>
    match handleFrame frame with
    | .ok lines => .ok (.handled lines)
    | .error e => .error e
    | .panic => .panic
  | .err e => .ok (.fatal e)

/-- What an iteration of `readLoop` sends to `main`: the `select` case that
receives it, or nothing. -/
def readLoopSends (a : LoopAction) : Option SelectCase :=
  match a with
  | .deliver frame => some (.msg frame)
  | .retry => none
  | .escalate e => some (.err e)

/-- `readLoop` on the bytes `reader`, for at most `fuel` iterations of its `for`
loop: what it sends to `main`, in order, and whether it has returned. -/
def readLoop (fuel : Nat) (reader : List Nat) : Outcome (List SelectCase × Bool) :=
  match fuel with
  | 0 => .ok ([], false)
  | fuel + 1 =>
    match readLoopStep reader with
    | (.ok (.deliver frame), r) =>
      match readLoop fuel r with
      | .ok (sent, returned) => .ok (.msg frame :: sent, returned)
      | .error e => .error e
      | .panic => .panic
    | (.ok .retry, r) => readLoop fuel r
    | (.ok (.escalate e), _) => .ok ([.err e], true)
    | (.error e, _) => .error e
    | (.panic, _) => .panic

end Master

/-! ## Frames that survive a round trip -/

/-- The frames `ReadFrame` can give back: the single-char frame with every other
field zero; a fixed frame without ASDU whose address fits the bytes `Encode`
writes for it; a variable frame with address width 1 or 2 whose address fits
that width. -/
def Frame.Canonical (F : Frame) : Prop :=
  if F.IsSingleChar then F = singleCharFrame
  else if F.IsFixed then F.ASDU = [] ∧ F.A < 65536 ∧ (F.ALen = 1 → F.A < 256)
  else (F.ALen = 1 ∧ F.A < 256) ∨ (F.ALen = 2 ∧ F.A < 65536)

instance (F : Frame) : Decidable F.Canonical := by
  unfold Frame.Canonical; infer_instance

/-- A well-formed frame for a channel of address width `w`: the single-char
frame, or a fixed or variable frame with `ALen = w`, `w` in `{1, 2}`,
`A < 256 ^ w`, no ASDU in a fixed frame and `1 + w + |ASDU| ≤ 255` in a variable
one. -/
def Frame.WellFormed (w : Int) (F : Frame) : Prop :=
  F = singleCharFrame ∨
    (F.IsSingleChar = false ∧ F.ALen = w ∧ ((w = 1 ∧ F.A < 256) ∨ (w = 2 ∧ F.A < 65536)) ∧
      (if F.IsFixed then F.ASDU = [] else 1 + w + (F.ASDU.length : Int) ≤ 255))

instance (w : Int) (F : Frame) : Decidable (F.WellFormed w) := by
  unfold Frame.WellFormed; infer_instance

/-- Reading `n` frames one after the other from the same reader, as `n`
iterations of a receive loop do: the frames read and the bytes left, or the
first failure. -/
def readN (w : Int) : Nat → List Nat → Outcome (List Frame) × List Nat
  | 0, r => (.ok [], r)
  | n + 1, r =>
    match ReadFrame r w with
    | (.ok f, r) =>
      match readN w n r with
      | (.ok fs, r) => (.ok (f :: fs), r)
      | (.error e, r) => (.error e, r)
      | (.panic, r) => (.panic, r)
    | (.error e, r) => (.error e, r)
    | (.panic, r) => (.panic, r)

/-- The bytes `bs` with bit `k` of the byte at index `i` flipped. -/
def flipBit (bs : List Nat) (i k : Nat) : List Nat :=
  bs.set i (bs.getD i 0 ^^^ 2 ^ k)

/-- Spec side of the wire formats: a value in `n` bytes, little-endian (byte `i`
is `v / 256 ^ i mod 256`). -/
def littleEndianBytes (n : Nat) (v : Nat) : List Nat :=
  (List.range n).map (fun i => v / 256 ^ i % 256)

/-- The length byte `L` of an encoded variable frame `68 L L 68 ... CS 16`: the
byte at offset 1. -/
def declaredLength (buf : List Nat) : Nat :=
  buf.getD 1 0

/-- The number of bytes of an encoded variable frame `68 L L 68 ... CS 16` that
lie between the second `68` (offset 3) and the checksum (the second-to-last
byte). -/
def writtenBodyLength (buf : List Nat) : Nat :=
  buf.length - 6

/-! ## Lemmas on the reader -/

theorem wrapInt_eq (x : Int) (h1 : -9223372036854775808 ≤ x) (h2 : x < 9223372036854775808) :
    wrapInt x = x := by
  unfold wrapInt
  omega

/-- Without overflow the length `Encode` computes is the exact sum. -/
theorem encodeLength_exact (ALen : Int) (n : Nat)
    (h1 : -9223372036854775808 ≤ 1 + ALen + (n : Int))
    (h2 : 1 + ALen + (n : Int) < 9223372036854775808) :
    encodeLength ALen n = 1 + ALen + n := by
  unfold encodeLength
  split
  · exact wrapInt_eq _ h1 h2
  · rfl

/-- For an address width of 1 or 2 the length `Encode` computes is the exact
sum. -/
theorem encodeLength_width (ALen : Int) (n : Nat) (h : ALen = 1 ∨ ALen = 2) :
    encodeLength ALen n = 1 + ALen + n := by
  unfold encodeLength
  split
  · apply wrapInt_eq <;> omega
  · rfl

theorem readFull_length_append (body r : List Nat) :
    readFull body.length (body ++ r) = (.ok body, r) := by
  cases body with
  | nil => simp [readFull]
  | cons b bs => simp [readFull]

theorem le16_split (A : Nat) (h : A < 65536) : A % 256 + 256 * (A / 256 % 256) = A := by
  omega

theorem readFull_two (a b : Nat) (r : List Nat) :
    readFull 2 (a :: b :: r) = (.ok [a, b], r) :=
  readFull_length_append [a, b] r

/-- `ReadFrame` on a stream that starts with a complete variable frame whose
length byte is the length of its body. -/
theorem readFrame_variable (body : List Nat) (cs : Nat) (rest : List Nat) (w : Int) :
    ReadFrame (StartCharVariable :: body.length :: body.length :: StartCharVariable ::
        (body ++ cs :: EndChar :: rest)) w
      = (if body.sum % 256 ≠ cs then .error .checksumError else parseBody body w, rest) := by
  have hr := readFull_length_append body (cs :: EndChar :: rest)
  simp only [ReadFrame, hr, readVariableTail]
  simp [StartCharVariable, SingleCharAck, StartCharFixed]
  split <;> simp_all

/-- `ReadFrame` with address width 1 on a stream that starts with a complete
fixed frame. -/
theorem readFrame_fixed_one (c b cs : Nat) (rest : List Nat) :
    ReadFrame (StartCharFixed :: c :: b :: cs :: EndChar :: rest) 1
      = (if (c + b) % 256 ≠ cs then .error .checksumError
         else .ok { IsFixed := true, IsSingleChar := false, C := c, A := b, ALen := 1,
                    ASDU := [] }, rest) := by
  simp only [ReadFrame, readFixedTail]
  simp [SingleCharAck, StartCharFixed]
  split <;> simp_all

/-- `ReadFrame` with an address width other than 1 on a stream that starts with
a complete fixed frame. -/
theorem readFrame_fixed_two (c b0 b1 cs : Nat) (rest : List Nat) (w : Int) (hw : w ≠ 1) :
    ReadFrame (StartCharFixed :: c :: b0 :: b1 :: cs :: EndChar :: rest) w
      = (if (c + (b0 + b1)) % 256 ≠ cs then .error .checksumError
         else .ok { IsFixed := true, IsSingleChar := false, C := c, A := b0 + 256 * b1,
                    ALen := w, ASDU := [] }, rest) := by
  simp only [ReadFrame, readFixedTail, readFull_two]
  simp [SingleCharAck, StartCharFixed, hw]
  split <;> simp_all

/-- The buffer `Encode` builds for a variable frame that is not too large. -/
theorem encodeBuf_variable (C A : Nat) (ALen : Int) (asdu : List Nat)
    (h : ALen = 1 ∨ ALen = 2) (hlen : 1 + ALen + (asdu.length : Int) ≤ 255) :
    Frame.encodeBuf { IsFixed := false, IsSingleChar := false, C := C, A := A, ALen := ALen,
                      ASDU := asdu }
      = .ok (StartCharVariable :: (C :: addrBytes A ALen ++ asdu).length ::
          (C :: addrBytes A ALen ++ asdu).length :: StartCharVariable ::
          ((C :: addrBytes A ALen ++ asdu) ++
            (C :: addrBytes A ALen ++ asdu).sum % 256 :: EndChar :: [])) := by
  have hl : ((1 + ALen + (asdu.length : Int)) % 256).toNat
      = (C :: addrBytes A ALen ++ asdu).length := by
    rcases h with h | h <;> subst h <;> simp [addrBytes] <;> omega
  simp only [Frame.encodeBuf, Bool.false_eq_true, if_false, gt_iff_lt,
    encodeLength_width ALen asdu.length h, not_lt.mpr hlen, hl]
  simp [Nat.add_assoc]

/-- Reading back what `Encode` built, followed by anything: the frame comes back
and exactly the trailing bytes are left. -/
theorem readFrame_encodeBuf_append (F : Frame) (w : Int) (buf rest : List Nat)
    (hc : F.Canonical) (hw : F.IsSingleChar = true ∨ F.ALen = w)
    (he : F.encodeBuf = .ok buf) :
    ReadFrame (buf ++ rest) w = (.ok F, rest) := by
  obtain ⟨fx, sc, C, A, ALen, asdu⟩ := F
  cases sc with
  | true =>
    simp only [Frame.Canonical, if_true] at hc
    simp only [Frame.encodeBuf, if_true, Outcome.ok.injEq] at he
    subst he
    simp [ReadFrame, hc]
  | false =>
    simp only [Bool.false_eq_true, false_or] at hw
    subst hw
    cases fx with
    | true =>
      simp only [Frame.Canonical, Bool.false_eq_true, if_false, if_true] at hc
      obtain ⟨hasdu, hA, hA1⟩ := hc
      subst hasdu
      simp only [Frame.encodeBuf, Bool.false_eq_true, if_false, if_true, Outcome.ok.injEq] at he
      subst he
      by_cases h1 : ALen = 1
      · subst h1
        have := hA1 rfl
        simp only [addrBytes, if_true, List.cons_append, List.nil_append, List.sum_cons,
          List.sum_nil, Nat.add_zero, readFrame_fixed_one]
        simp [Nat.mod_eq_of_lt this]
      · have := le16_split A hA
        simp only [addrBytes, h1, if_false, List.cons_append, List.nil_append, List.sum_cons,
          List.sum_nil, Nat.add_zero, readFrame_fixed_two _ _ _ _ _ _ h1]
        simp [this]
    | false =>
      simp only [Frame.Canonical, Bool.false_eq_true, if_false] at hc
      have hA12 : ALen = 1 ∨ ALen = 2 := hc.imp And.left And.left
      have hlen : 1 + ALen + (asdu.length : Int) ≤ 255 := by
        by_contra hgt
        simp [Frame.encodeBuf, encodeLength_width ALen asdu.length hA12, not_le.mp hgt] at he
      rw [encodeBuf_variable C A ALen asdu hA12 hlen, Outcome.ok.injEq] at he
      subst he
      simp only [List.cons_append, List.append_assoc, List.nil_append]
      have hv := readFrame_variable (C :: addrBytes A ALen ++ asdu)
        ((C :: addrBytes A ALen ++ asdu).sum % 256) rest ALen
      simp only [List.cons_append, List.append_assoc, List.nil_append] at hv
      rw [hv]
      rcases hc with ⟨h1, hA⟩ | ⟨h2, hA⟩
      · subst h1
        simp [parseBody, addrBytes, Nat.mod_eq_of_lt hA]
      · subst h2
        simp [parseBody, addrBytes, le16_split A hA]

theorem encode_eq_of_encodeBuf (F : Frame) (w : Port) (buf : List Nat)
    (h : F.encodeBuf = .ok buf) : F.Encode w = (none, w ++ [buf]) := by
  simp [Frame.Encode, h]

theorem encodeBuf_of_encode (F : Frame) (w w' : Port) (h : F.Encode w = (none, w')) :
    ∃ buf, F.encodeBuf = .ok buf ∧ w' = w ++ [buf] := by
  unfold Frame.Encode at h
  split at h
  · rename_i buf hb
    exact ⟨buf, hb, by simpa using h.symm⟩
  · simp at h
  · rename_i hp
    exfalso
    unfold Frame.encodeBuf at hp
    split at hp
    · simp at hp
    · split at hp
      · simp at hp
      · simp only at hp
        split at hp <;> simp at hp

theorem wellFormed_canonical (w : Int) (F : Frame) (h : F.WellFormed w) :
    F.Canonical ∧ (F.IsSingleChar = true ∨ F.ALen = w) := by
  rcases h with h | ⟨hs, hw, hA, hx⟩
  · subst h; exact ⟨by decide, Or.inl rfl⟩
  · refine ⟨?_, Or.inr hw⟩
    unfold Frame.Canonical
    simp only [hs, Bool.false_eq_true, if_false]
    by_cases hf : F.IsFixed = true
    · simp only [hf, if_true] at hx ⊢
      refine ⟨hx, ?_, ?_⟩
      · rcases hA with ⟨_, h⟩ | ⟨_, h⟩ <;> omega
      · intro h1
        rcases hA with ⟨_, h⟩ | ⟨h2, _⟩
        · exact h
        · omega
    · simp only [hf, if_false]
      rcases hA with ⟨h1, h⟩ | ⟨h2, h⟩
      · exact Or.inl ⟨by omega, h⟩
      · exact Or.inr ⟨by omega, h⟩

theorem wellFormed_encodeBuf (w : Int) (F : Frame) (h : F.WellFormed w) :
    ∃ buf, F.encodeBuf = .ok buf ∧
      (buf.length : Int) = if F.IsSingleChar then 1 else if F.IsFixed then 4 + w
        else 6 + (1 + w + F.ASDU.length) := by
  rcases h with h | ⟨hs, hw, hA, hx⟩
  · subst h; exact ⟨[SingleCharAck], rfl, rfl⟩
  · obtain ⟨fx, sc, C, A, ALen, asdu⟩ := F
    simp only at hs hw hA hx
    subst hs hw
    cases fx with
    | true =>
      refine ⟨[StartCharFixed, C] ++ addrBytes A ALen
          ++ [(C + (addrBytes A ALen).sum) % 256, EndChar], ?_, ?_⟩
      · simp only [Frame.encodeBuf, Bool.false_eq_true, if_false, if_true]
      · rcases hA with ⟨h1, _⟩ | ⟨h2, _⟩
        · subst h1; simp [addrBytes]
        · subst h2; simp [addrBytes]
    | false =>
      simp only [Bool.false_eq_true, if_false] at hx
      have h12 : ALen = 1 ∨ ALen = 2 := hA.imp And.left And.left
      refine ⟨_, encodeBuf_variable C A ALen asdu h12 hx, ?_⟩
      rcases h12 with h | h <;> subst h <;> simp [addrBytes] <;> omega

theorem readN_encoded (w : Int) (Fs : List Frame) (bufs : List (List Nat)) (rest : List Nat)
    (h : List.Forall₂ (fun F buf => F.WellFormed w ∧ F.encodeBuf = .ok buf) Fs bufs) :
    readN w Fs.length (bufs.flatten ++ rest) = (.ok Fs, rest) := by
  induction h with
  | nil => simp [readN]
  | cons hF _ ih =>
    obtain ⟨hwf, he⟩ := hF
    obtain ⟨hc, hw⟩ := wellFormed_canonical w _ hwf
    simp only [List.length_cons, readN, List.flatten_cons, List.append_assoc,
      readFrame_encodeBuf_append _ w _ _ hc hw he, ih]

theorem xor_pow_ne (a k : Nat) : a ^^^ 2 ^ k ≠ a := by
  intro h
  have h2 : a ^^^ 2 ^ k = a ^^^ 0 := by simpa using h
  have := Nat.xor_right_injective h2
  exact absurd this (by positivity)

theorem flipBit_append_two (pre : List Nat) (cs e : Nat) (k : Nat) :
    flipBit (pre ++ [cs, e]) ((pre ++ [cs, e]).length - 2) k = pre ++ [cs ^^^ 2 ^ k, e] := by
  have hl : (pre ++ [cs, e]).length - 2 = pre.length := by simp
  rw [hl, flipBit]
  induction pre with
  | nil => simp
  | cons p ps ih => simpa using ih

theorem toInt16_range (u : Nat) : -32768 ≤ toInt16 u ∧ toInt16 u ≤ 32767 := by
  unfold toInt16
  split <;> omega

theorem toUint16_toInt16 (u : Nat) (h : u < 65536) : toUint16 (toInt16 u) = u := by
  unfold toUint16 toInt16
  split <;> omega

theorem toInt16_toUint16 (v : Int) (h : -32768 ≤ v ∧ v ≤ 32767) : toInt16 (toUint16 v) = v := by
  unfold toUint16 toInt16
  split <;> omega

theorem toUint16_lt (v : Int) : toUint16 v < 65536 := by
  unfold toUint16
  omega

theorem getUint16_putUint16 (v : Nat) (h : v < 65536) :
    getUint16 (v % 256) (v / 256 % 256) = v := by
  unfold getUint16
  omega

/-- Decoding an encoded scaled value gives the three fields back. -/
theorem parseSetpointScaled_encode (ioa : Nat) (val : Int) (q : Nat) (hioa : ioa < 65536)
    (hval : -32768 ≤ val ∧ val ≤ 32767) :
    ParseSetpointScaled (EncodeMeasuredValueScaled ioa val q) = (ioa, val, q, none) := by
  simp [ParseSetpointScaled, EncodeMeasuredValueScaled, putUint16, getUint16_putUint16 ioa hioa,
    getUint16_putUint16 _ (toUint16_lt val), toInt16_toUint16 val hval]

/-- The buffer `sendASDU` hands to `Encode` is never too large when the payload
has at most 247 bytes. -/
theorem sendASDU_eq (port : Port) (la typeID cot ca : Nat) (data : List Nat)
    (h : data.length ≤ 247) :
    ∃ buf,
      Frame.encodeBuf
          { IsFixed := false, IsSingleChar := false, C := 8, A := la, ALen := 2,
            ASDU := ASDU.Encode
              { TypeID := typeID, VSQ := 1, COT := cot, CommonAddr := ca, Data := data } }
        = .ok buf ∧
      Slave.sendASDU port la typeID cot ca data = port ++ [buf] := by
  have hlen : 1 + (2 : Int) + ((ASDU.Encode
      { TypeID := typeID, VSQ := 1, COT := cot, CommonAddr := ca, Data := data }).length : Int)
        ≤ 255 := by
    simp [ASDU.Encode, putUint16]; omega
  have he := encodeBuf_variable 8 la 2 _ (Or.inr rfl) hlen
  exact ⟨_, he, by simp only [Slave.sendASDU, Slave.linkAddrLen, Frame.Encode, he]⟩

/-! ## Claims -/

/-- C1 as stated fails: the fixed frame with `ALen = 1` and `A = 257` encodes
without error, and `ReadFrame` with width 1 gives back a frame with `A = 1`. -/
theorem frame_roundtrip_loses_wide_address :
    Frame.Encode { IsFixed := true, IsSingleChar := false, C := 0, A := 257, ALen := 1,
                   ASDU := [] } [] = (none, [[16, 0, 1, 1, 22]]) ∧
    ReadFrame [16, 0, 1, 1, 22] 1
      = (.ok { IsFixed := true, IsSingleChar := false, C := 0, A := 1, ALen := 1,
               ASDU := [] }, []) ∧
    (ReadFrame [16, 0, 1, 1, 22] 1).1
      ≠ .ok { IsFixed := true, IsSingleChar := false, C := 0, A := 257, ALen := 1,
              ASDU := [] } := by
  decide

/-- C1 (amended): for every canonical frame `F` (the single-char frame with all
other fields zero; a fixed frame without ASDU and with `A` below 65536, below
256 when `ALen = 1`; a variable frame with `ALen` 1 or 2 and `A < 256 ^ ALen`)
on which `Encode` succeeds, `ReadFrame` on exactly the bytes written, with
`linkAddrLen = F.ALen`, returns `F` and leaves nothing unread. -/
theorem frame_roundtrip (F : Frame) (buf : List Nat) (hc : F.Canonical)
    (he : F.Encode [] = (none, [buf])) :
    ReadFrame buf F.ALen = (.ok F, []) := by
  obtain ⟨b, hb, hw⟩ := encodeBuf_of_encode F [] [buf] he
  have hbb : buf = b := by simpa using hw
  subst hbb
  simpa using readFrame_encodeBuf_append F F.ALen buf [] hc (Or.inr rfl) hb

/-- C1 witness: a variable frame with a two-byte address and three ASDU bytes. -/
theorem frame_roundtrip_witness :
    ReadFrame [104, 6, 6, 104, 8, 1, 2, 7, 8, 9, 35, 22] 2
      = (.ok { IsFixed := false, IsSingleChar := false, C := 8, A := 513, ALen := 2,
               ASDU := [7, 8, 9] }, []) :=
  frame_roundtrip { IsFixed := false, IsSingleChar := false, C := 8, A := 513, ALen := 2,
                    ASDU := [7, 8, 9] } [104, 6, 6, 104, 8, 1, 2, 7, 8, 9, 35, 22]
    (by decide) (by decide)

/-- C2 (the code fails it): one iteration of the outstation receive loop panics
on the checksum-valid variable frame `68 00 00 68 00 16`, whose length byte is
0 (`body[0]` in `ReadFrame`), and on a checksum-valid variable frame carrying a
four-byte ASDU (`data[3:5]` in `DecodeASDU`). -/
theorem handleConnectionStep_panics (st : Slave.State) (port : Port) :
    Slave.handleConnectionStep st port [0x68, 0, 0, 0x68, 0, 0x16] = .panic ∧
    Slave.handleConnectionStep st port
      [0x68, 7, 7, 0x68, 0, 1, 0, 100, 1, 6, 1, 109, 0x16] = .panic := by
  constructor <;> rfl

/-- C3 (the code fails it): on every input of exactly four bytes `DecodeASDU`
passes its guard `len(data) < 4` and panics; it returns no error. -/
theorem decodeASDU_four_bytes_panics (a b c d : Nat) :
    DecodeASDU [a, b, c, d] = .panic ∧ DecodeASDU [a, b, c, d] ≠ .error .asduTooShort := by
  constructor
  · rfl
  · simp [DecodeASDU]

/-- C4: on a request whose payload `d` has at least 3 bytes, the payload decodes
without error to `(ioa, qoi)` with `ioa = d[0] + 256 * d[1]` (little-endian) and
`qoi = d[2]`, and `handleInterrogation` makes exactly four writes, in this
order, each the encoding of a variable frame with control byte 8, link address
`la`, address width 2 and an ASDU with VSQ 1 and the request's common address:
typeID 100 cause 7 with `EncodeInterrogation ioa qoi`; typeID 11 cause 20 with
`(1, powerDrawn, 0)`; typeID 11 cause 20 with `(2, powerLimitation, 0)`;
typeID 100 cause 10 with `EncodeInterrogation ioa qoi`.  When `d` consists of
bytes, `EncodeInterrogation ioa qoi` is the first three bytes of `d`: the
confirmation and the termination echo the request's payload. -/
theorem handleInterrogation_reply_chain (st : Slave.State) (port : Port) (la : Nat)
    (req : ASDU) (h : 3 ≤ req.Data.length) :
    ParseInterrogation req.Data
      = (req.Data.getD 0 0 + 256 * req.Data.getD 1 0, req.Data.getD 2 0, none) ∧
    ((∀ b ∈ req.Data, b < 256) →
      EncodeInterrogation (req.Data.getD 0 0 + 256 * req.Data.getD 1 0) (req.Data.getD 2 0)
        = req.Data.take 3) ∧
    ∃ b1 b2 b3 b4 : List Nat,
      Frame.encodeBuf
          { IsFixed := false, IsSingleChar := false, C := 8, A := la, ALen := 2,
            ASDU := ASDU.Encode
              { TypeID := 100, VSQ := 1, COT := 7, CommonAddr := req.CommonAddr,
                Data := EncodeInterrogation
                    (req.Data.getD 0 0 + 256 * req.Data.getD 1 0) (req.Data.getD 2 0) } }
        = .ok b1 ∧
      Frame.encodeBuf
          { IsFixed := false, IsSingleChar := false, C := 8, A := la, ALen := 2,
            ASDU := ASDU.Encode
              { TypeID := 11, VSQ := 1, COT := 20, CommonAddr := req.CommonAddr,
                Data := EncodeMeasuredValueScaled 1 st.powerDrawn 0 } }
        = .ok b2 ∧
      Frame.encodeBuf
          { IsFixed := false, IsSingleChar := false, C := 8, A := la, ALen := 2,
            ASDU := ASDU.Encode
              { TypeID := 11, VSQ := 1, COT := 20, CommonAddr := req.CommonAddr,
                Data := EncodeMeasuredValueScaled 2 st.powerLimitation 0 } }
        = .ok b3 ∧
      Frame.encodeBuf
          { IsFixed := false, IsSingleChar := false, C := 8, A := la, ALen := 2,
            ASDU := ASDU.Encode
              { TypeID := 100, VSQ := 1, COT := 10, CommonAddr := req.CommonAddr,
                Data := EncodeInterrogation
                    (req.Data.getD 0 0 + 256 * req.Data.getD 1 0) (req.Data.getD 2 0) } }
        = .ok b4 ∧
      Slave.handleInterrogation st port la req = port ++ [b1, b2, b3, b4] := by
  have hp : ParseInterrogation req.Data
      = (req.Data.getD 0 0 + 256 * req.Data.getD 1 0, req.Data.getD 2 0, none) := by
    simp [ParseInterrogation, getUint16, Nat.not_lt.mpr h]
  refine ⟨hp, ?_, ?_⟩
  · intro hb
    obtain ⟨ioa, qoi, d, hd⟩ : ∃ d0 d1 d2 rest, req.Data = d0 :: d1 :: d2 :: rest := by
      match hd : req.Data, h with
      | d0 :: d1 :: d2 :: rest, _ => exact ⟨d0, d1, d2, rest, rfl⟩
    obtain ⟨rest, hd⟩ := hd
    rw [hd] at hb ⊢
    have h0 : ioa < 256 := hb ioa (by simp)
    have h1 : qoi < 256 := hb qoi (by simp)
    simp only [EncodeInterrogation, putUint16, List.getD_cons_zero, List.getD_cons_succ,
      List.take_succ_cons, List.take_zero, List.cons_append, List.nil_append]
    have e0 : (ioa + 256 * qoi) % 256 = ioa := by omega
    have e1 : (ioa + 256 * qoi) / 256 % 256 = qoi := by omega
    rw [e0, e1]
  · obtain ⟨b1, h1, e1⟩ := sendASDU_eq port la 100 7 req.CommonAddr
      (EncodeInterrogation (req.Data.getD 0 0 + 256 * req.Data.getD 1 0) (req.Data.getD 2 0))
      (by simp [EncodeInterrogation, putUint16])
    obtain ⟨b2, h2, e2⟩ := sendASDU_eq (port ++ [b1]) la 11 20 req.CommonAddr
      (EncodeMeasuredValueScaled 1 st.powerDrawn 0)
      (by simp [EncodeMeasuredValueScaled, putUint16])
    obtain ⟨b3, h3, e3⟩ := sendASDU_eq (port ++ [b1] ++ [b2]) la 11 20 req.CommonAddr
      (EncodeMeasuredValueScaled 2 st.powerLimitation 0)
      (by simp [EncodeMeasuredValueScaled, putUint16])
    obtain ⟨b4, h4, e4⟩ := sendASDU_eq (port ++ [b1] ++ [b2] ++ [b3]) la 100 10 req.CommonAddr
      (EncodeInterrogation (req.Data.getD 0 0 + 256 * req.Data.getD 1 0) (req.Data.getD 2 0))
      (by simp [EncodeInterrogation, putUint16])
    refine ⟨b1, b2, b3, b4, h1, h2, h3, h4, ?_⟩
    unfold Slave.handleInterrogation
    rw [hp]
    simp only [TypeC_IC_NA_1, TypeM_ME_NB_1, CauseActCon, CauseInrogen, CauseActTerm]
    rw [e1, e2, e3, e4]
    simp

/-- C4 witness: state `(1234, 22000)` at link address 1, with the request
`ASDU(type=100, cause=6, ca=1, ioa=0, qualifier=20)`, and with the request
payload `01 02 05` (`ioa = 513`, qualifier 5), which the confirmation and the
termination carry back as `01 02 05`. -/
theorem handleInterrogation_reply_chain_witness :
    (3 ≤ [0, 0, 20].length ∧ (∀ b ∈ [0, 0, 20], b < 256) ∧
      ParseInterrogation [0, 0, 20] = (0, 20, none) ∧
      EncodeInterrogation 0 20 = [0, 0, 20] ∧
      Slave.handleInterrogation { powerDrawn := 1234, powerLimitation := 22000 } [] 1
          { TypeID := 100, VSQ := 1, COT := 6, CommonAddr := 1, Data := [0, 0, 20] }
        = [[104, 11, 11, 104, 8, 1, 0, 100, 1, 7, 1, 0, 0, 0, 20, 138, 22],
           [104, 13, 13, 104, 8, 1, 0, 11, 1, 20, 1, 0, 1, 0, 210, 4, 0, 1, 22],
           [104, 13, 13, 104, 8, 1, 0, 11, 1, 20, 1, 0, 2, 0, 240, 85, 0, 113, 22],
           [104, 11, 11, 104, 8, 1, 0, 100, 1, 10, 1, 0, 0, 0, 20, 141, 22]]) ∧
    (3 ≤ [1, 2, 5].length ∧ (∀ b ∈ [1, 2, 5], b < 256) ∧
      ParseInterrogation [1, 2, 5] = (513, 5, none) ∧
      EncodeInterrogation 513 5 = [1, 2, 5] ∧
      Slave.handleInterrogation { powerDrawn := 1234, powerLimitation := 22000 } [] 1
          { TypeID := 100, VSQ := 1, COT := 6, CommonAddr := 1, Data := [1, 2, 5] }
        = [[104, 11, 11, 104, 8, 1, 0, 100, 1, 7, 1, 0, 1, 2, 5, 126, 22],
           [104, 13, 13, 104, 8, 1, 0, 11, 1, 20, 1, 0, 1, 0, 210, 4, 0, 1, 22],
           [104, 13, 13, 104, 8, 1, 0, 11, 1, 20, 1, 0, 2, 0, 240, 85, 0, 113, 22],
           [104, 11, 11, 104, 8, 1, 0, 100, 1, 10, 1, 0, 1, 2, 5, 129, 22]]) := by
  have rA : Slave.handleInterrogation { powerDrawn := 1234, powerLimitation := 22000 } [] 1
        { TypeID := 100, VSQ := 1, COT := 6, CommonAddr := 1, Data := [0, 0, 20] }
      = [[104, 11, 11, 104, 8, 1, 0, 100, 1, 7, 1, 0, 0, 0, 20, 138, 22],
         [104, 13, 13, 104, 8, 1, 0, 11, 1, 20, 1, 0, 1, 0, 210, 4, 0, 1, 22],
         [104, 13, 13, 104, 8, 1, 0, 11, 1, 20, 1, 0, 2, 0, 240, 85, 0, 113, 22],
         [104, 11, 11, 104, 8, 1, 0, 100, 1, 10, 1, 0, 0, 0, 20, 141, 22]] := by
    obtain ⟨_, _, b1, b2, b3, b4, h1, h2, h3, h4, h⟩ :=
      handleInterrogation_reply_chain { powerDrawn := 1234, powerLimitation := 22000 } [] 1
        { TypeID := 100, VSQ := 1, COT := 6, CommonAddr := 1, Data := [0, 0, 20] } (by decide)
    rw [h]
    have e1 := h1.symm.trans (by decide :
    Frame.encodeBuf
        { IsFixed := false, IsSingleChar := false, C := 8, A := 1, ALen := 2,
          ASDU := ASDU.Encode
            { TypeID := 100, VSQ := 1, COT := 7, CommonAddr := 1,
              Data := EncodeInterrogation
                    ([0, 0, 20].getD 0 0 + 256 * [0, 0, 20].getD 1 0) ([0, 0, 20].getD 2 0) } }
      = .ok [104, 11, 11, 104, 8, 1, 0, 100, 1, 7, 1, 0, 0, 0, 20, 138, 22])
    have e2 := h2.symm.trans (by decide :
    Frame.encodeBuf
        { IsFixed := false, IsSingleChar := false, C := 8, A := 1, ALen := 2,
          ASDU := ASDU.Encode
            { TypeID := 11, VSQ := 1, COT := 20, CommonAddr := 1,
              Data := EncodeMeasuredValueScaled 1 1234 0 } }
      = .ok [104, 13, 13, 104, 8, 1, 0, 11, 1, 20, 1, 0, 1, 0, 210, 4, 0, 1, 22])
    have e3 := h3.symm.trans (by decide :
    Frame.encodeBuf
        { IsFixed := false, IsSingleChar := false, C := 8, A := 1, ALen := 2,
          ASDU := ASDU.Encode
            { TypeID := 11, VSQ := 1, COT := 20, CommonAddr := 1,
              Data := EncodeMeasuredValueScaled 2 22000 0 } }
      = .ok [104, 13, 13, 104, 8, 1, 0, 11, 1, 20, 1, 0, 2, 0, 240, 85, 0, 113, 22])
    have e4 := h4.symm.trans (by decide :
    Frame.encodeBuf
        { IsFixed := false, IsSingleChar := false, C := 8, A := 1, ALen := 2,
          ASDU := ASDU.Encode
            { TypeID := 100, VSQ := 1, COT := 10, CommonAddr := 1,
              Data := EncodeInterrogation
                    ([0, 0, 20].getD 0 0 + 256 * [0, 0, 20].getD 1 0) ([0, 0, 20].getD 2 0) } }
      = .ok [104, 11, 11, 104, 8, 1, 0, 100, 1, 10, 1, 0, 0, 0, 20, 141, 22])
    simp only [Outcome.ok.injEq] at e1 e2 e3 e4
    subst e1 e2 e3 e4
    rfl
  have rB : Slave.handleInterrogation { powerDrawn := 1234, powerLimitation := 22000 } [] 1
        { TypeID := 100, VSQ := 1, COT := 6, CommonAddr := 1, Data := [1, 2, 5] }
      = [[104, 11, 11, 104, 8, 1, 0, 100, 1, 7, 1, 0, 1, 2, 5, 126, 22],
         [104, 13, 13, 104, 8, 1, 0, 11, 1, 20, 1, 0, 1, 0, 210, 4, 0, 1, 22],
         [104, 13, 13, 104, 8, 1, 0, 11, 1, 20, 1, 0, 2, 0, 240, 85, 0, 113, 22],
         [104, 11, 11, 104, 8, 1, 0, 100, 1, 10, 1, 0, 1, 2, 5, 129, 22]] := by
    obtain ⟨_, _, b1, b2, b3, b4, h1, h2, h3, h4, h⟩ :=
      handleInterrogation_reply_chain { powerDrawn := 1234, powerLimitation := 22000 } [] 1
        { TypeID := 100, VSQ := 1, COT := 6, CommonAddr := 1, Data := [1, 2, 5] } (by decide)
    rw [h]
    have e1 := h1.symm.trans (by decide :
    Frame.encodeBuf
        { IsFixed := false, IsSingleChar := false, C := 8, A := 1, ALen := 2,
          ASDU := ASDU.Encode
            { TypeID := 100, VSQ := 1, COT := 7, CommonAddr := 1,
              Data := EncodeInterrogation
                    ([1, 2, 5].getD 0 0 + 256 * [1, 2, 5].getD 1 0) ([1, 2, 5].getD 2 0) } }
      = .ok [104, 11, 11, 104, 8, 1, 0, 100, 1, 7, 1, 0, 1, 2, 5, 126, 22])
    have e2 := h2.symm.trans (by decide :
    Frame.encodeBuf
        { IsFixed := false, IsSingleChar := false, C := 8, A := 1, ALen := 2,
          ASDU := ASDU.Encode
            { TypeID := 11, VSQ := 1, COT := 20, CommonAddr := 1,
              Data := EncodeMeasuredValueScaled 1 1234 0 } }
      = .ok [104, 13, 13, 104, 8, 1, 0, 11, 1, 20, 1, 0, 1, 0, 210, 4, 0, 1, 22])
    have e3 := h3.symm.trans (by decide :
    Frame.encodeBuf
        { IsFixed := false, IsSingleChar := false, C := 8, A := 1, ALen := 2,
          ASDU := ASDU.Encode
            { TypeID := 11, VSQ := 1, COT := 20, CommonAddr := 1,
              Data := EncodeMeasuredValueScaled 2 22000 0 } }
      = .ok [104, 13, 13, 104, 8, 1, 0, 11, 1, 20, 1, 0, 2, 0, 240, 85, 0, 113, 22])
    have e4 := h4.symm.trans (by decide :
    Frame.encodeBuf
        { IsFixed := false, IsSingleChar := false, C := 8, A := 1, ALen := 2,
          ASDU := ASDU.Encode
            { TypeID := 100, VSQ := 1, COT := 10, CommonAddr := 1,
              Data := EncodeInterrogation
                    ([1, 2, 5].getD 0 0 + 256 * [1, 2, 5].getD 1 0) ([1, 2, 5].getD 2 0) } }
      = .ok [104, 11, 11, 104, 8, 1, 0, 100, 1, 10, 1, 0, 1, 2, 5, 129, 22])
    simp only [Outcome.ok.injEq] at e1 e2 e3 e4
    subst e1 e2 e3 e4
    rfl
  exact ⟨⟨by decide, by decide,
      (handleInterrogation_reply_chain { powerDrawn := 1234, powerLimitation := 22000 } [] 1
        { TypeID := 100, VSQ := 1, COT := 6, CommonAddr := 1, Data := [0, 0, 20] } (by decide)).1,
      (handleInterrogation_reply_chain { powerDrawn := 1234, powerLimitation := 22000 } [] 1
        { TypeID := 100, VSQ := 1, COT := 6, CommonAddr := 1, Data := [0, 0, 20] } (by decide)).2.1 (by decide), rA⟩,
    ⟨by decide, by decide,
      (handleInterrogation_reply_chain { powerDrawn := 1234, powerLimitation := 22000 } [] 1
        { TypeID := 100, VSQ := 1, COT := 6, CommonAddr := 1, Data := [1, 2, 5] } (by decide)).1,
      (handleInterrogation_reply_chain { powerDrawn := 1234, powerLimitation := 22000 } [] 1
        { TypeID := 100, VSQ := 1, COT := 6, CommonAddr := 1, Data := [1, 2, 5] } (by decide)).2.1 (by decide), rB⟩⟩

/-- C5: on a request whose payload has at least 5 bytes, decoding to
`(ioa, value, quality)`, `handleSetpoint` leaves `powerDrawn` as it is, sets
`powerLimitation` to `value` exactly when `ioa = 2`, and makes exactly one
write: the encoding of a variable frame (control byte 8, link address `la`,
width 2) whose ASDU has typeID 48, VSQ 1, cause 7, the request's common address
and the payload `EncodeMeasuredValueScaled ioa value quality`.  When the request
payload consists of bytes, that reply payload decodes to the same
`(ioa, value, quality)`. -/
theorem handleSetpoint_confirms (st : Slave.State) (port : Port) (la : Nat) (req : ASDU)
    (h : 5 ≤ req.Data.length) :
    ∃ buf : List Nat,
      Frame.encodeBuf
          { IsFixed := false, IsSingleChar := false, C := 8, A := la, ALen := 2,
            ASDU := ASDU.Encode
              { TypeID := 48, VSQ := 1, COT := 7, CommonAddr := req.CommonAddr,
                Data := EncodeMeasuredValueScaled (ParseSetpointScaled req.Data).1
                  (ParseSetpointScaled req.Data).2.1 (ParseSetpointScaled req.Data).2.2.1 } }
        = .ok buf ∧
      Slave.handleSetpoint st port la req
        = ({ powerDrawn := st.powerDrawn,
             powerLimitation := if (ParseSetpointScaled req.Data).1 = 2
               then (ParseSetpointScaled req.Data).2.1 else st.powerLimitation },
           port ++ [buf]) ∧
      ((∀ b ∈ req.Data, b < 256) →
        ParseSetpointScaled (EncodeMeasuredValueScaled (ParseSetpointScaled req.Data).1
            (ParseSetpointScaled req.Data).2.1 (ParseSetpointScaled req.Data).2.2.1)
          = ((ParseSetpointScaled req.Data).1, (ParseSetpointScaled req.Data).2.1,
             (ParseSetpointScaled req.Data).2.2.1, none)) := by
  have hp : ParseSetpointScaled req.Data
      = ((ParseSetpointScaled req.Data).1, (ParseSetpointScaled req.Data).2.1,
         (ParseSetpointScaled req.Data).2.2.1, none) := by
    simp [ParseSetpointScaled, Nat.not_lt.mpr h]
  obtain ⟨buf, hb, hs⟩ := sendASDU_eq port la 48 7 req.CommonAddr
    (EncodeMeasuredValueScaled (ParseSetpointScaled req.Data).1
      (ParseSetpointScaled req.Data).2.1 (ParseSetpointScaled req.Data).2.2.1)
    (by simp [EncodeMeasuredValueScaled, putUint16])
  refine ⟨buf, hb, ?_, ?_⟩
  · unfold Slave.handleSetpoint
    rw [hp]
    simp only [TypeC_SE_NB_1, CauseActCon, hs]
    split <;> rfl
  · intro hbytes
    obtain ⟨d0, d1, d2, d3, d4, rest, hd⟩ :
        ∃ d0 d1 d2 d3 d4 rest, req.Data = d0 :: d1 :: d2 :: d3 :: d4 :: rest := by
      match hm : req.Data, h with
      | d0 :: d1 :: d2 :: d3 :: d4 :: rest, _ => exact ⟨d0, d1, d2, d3, d4, rest, rfl⟩
    have h0 : d0 < 256 := hbytes d0 (by simp [hd])
    have h1 : d1 < 256 := hbytes d1 (by simp [hd])
    have hlt : ¬ req.Data.length < 5 := Nat.not_lt.mpr h
    apply parseSetpointScaled_encode
    · simp only [ParseSetpointScaled, if_neg hlt]
      simp only [hd, getUint16, List.getD_cons_zero, List.getD_cons_succ]
      omega
    · simp only [ParseSetpointScaled, if_neg hlt]
      exact toInt16_range _

/-- C5 witness: `ASDU(type=48, cause=6, ca=1, ioa=2, value=20500, quality=0)` in
state `(1234, 22000)` at link address 1. -/
theorem handleSetpoint_confirms_witness :
    5 ≤ [2, 0, 20, 80, 0].length ∧
    Slave.handleSetpoint { powerDrawn := 1234, powerLimitation := 22000 } [] 1
        { TypeID := 48, VSQ := 1, COT := 6, CommonAddr := 1, Data := [2, 0, 20, 80, 0] }
      = ({ powerDrawn := 1234, powerLimitation := 20500 },
         [[104, 13, 13, 104, 8, 1, 0, 48, 1, 7, 1, 0, 2, 0, 20, 80, 0, 168, 22]]) ∧
    (∀ b ∈ [2, 0, 20, 80, 0], b < 256) ∧
    ParseSetpointScaled (EncodeMeasuredValueScaled 2 20500 0) = (2, 20500, 0, none) := by
  obtain ⟨buf, hb, hs, hrt⟩ :=
    handleSetpoint_confirms { powerDrawn := 1234, powerLimitation := 22000 } [] 1
      { TypeID := 48, VSQ := 1, COT := 6, CommonAddr := 1, Data := [2, 0, 20, 80, 0] }
      (by decide)
  refine ⟨by decide, ?_, by decide, hrt (by decide)⟩
  rw [hs]
  have e := hb.symm.trans (by decide :
    Frame.encodeBuf
        { IsFixed := false, IsSingleChar := false, C := 8, A := 1, ALen := 2,
          ASDU := ASDU.Encode
            { TypeID := 48, VSQ := 1, COT := 7, CommonAddr := 1,
              Data := EncodeMeasuredValueScaled (ParseSetpointScaled [2, 0, 20, 80, 0]).1
                (ParseSetpointScaled [2, 0, 20, 80, 0]).2.1
                (ParseSetpointScaled [2, 0, 20, 80, 0]).2.2.1 } }
      = .ok [104, 13, 13, 104, 8, 1, 0, 48, 1, 7, 1, 0, 2, 0, 20, 80, 0, 168, 22])
  simp only [Outcome.ok.injEq] at e
  subst e
  decide

/-- C6: `handleFixedFrame` answers by the function code `fc = C AND 0x0F` of the
frame: for `fc` 0 and 9 exactly one write, the encoding of the fixed frame with
control byte 0, the same link address and width 2, i.e. the six bytes
`10 00 lo hi cs 16`; for `fc` 10 and 11 exactly one write of the single byte
`E5`; for every other `fc` no write. -/
theorem handleFixedFrame_dispatch (port : Port) (frame : Frame) :
    Frame.encodeBuf
        { IsFixed := true, IsSingleChar := false, C := 0, A := frame.A, ALen := 2, ASDU := [] }
      = .ok [0x10, 0, frame.A % 256, frame.A / 256 % 256,
             (frame.A % 256 + frame.A / 256 % 256) % 256, 0x16] ∧
    Slave.handleFixedFrame port frame
      = (if frame.C &&& 0x0F = 0 ∨ frame.C &&& 0x0F = 9 then
           port ++ [[0x10, 0, frame.A % 256, frame.A / 256 % 256,
                     (frame.A % 256 + frame.A / 256 % 256) % 256, 0x16]]
         else if frame.C &&& 0x0F = 10 ∨ frame.C &&& 0x0F = 11 then port ++ [[0xE5]]
         else port) := by
  have he : Frame.encodeBuf
      { IsFixed := true, IsSingleChar := false, C := 0, A := frame.A, ALen := 2, ASDU := [] }
      = .ok [0x10, 0, frame.A % 256, frame.A / 256 % 256,
             (frame.A % 256 + frame.A / 256 % 256) % 256, 0x16] := by
    simp [Frame.encodeBuf, addrBytes, StartCharFixed, EndChar]
  have hs : Slave.sendFixed port 0 frame.A
      = port ++ [[0x10, 0, frame.A % 256, frame.A / 256 % 256,
                  (frame.A % 256 + frame.A / 256 % 256) % 256, 0x16]] := by
    have h0 : (0 : Nat) &&& 0x0F = 0 := by decide
    simp only [Slave.sendFixed, Slave.linkAddrLen, h0, Frame.Encode, he]
  refine ⟨he, ?_⟩
  unfold Slave.handleFixedFrame
  simp only [hs, Slave.sendSingleChar]
  by_cases h0 : frame.C &&& 0x0F = 0
  · simp [h0]
  · by_cases h9 : frame.C &&& 0x0F = 9
    · simp [h9]
    · simp [h0, h9]

/-- C7 as stated fails: on a fixed frame with a wrong checksum, followed by a
valid single-character frame, `ReadFrame` returns the checksum error, and the
master's `readLoop` sends it on `errorChan` and returns without reading the
frame that follows; `main` receives it in its `select` and terminates the
process with `log.Fatalf`. -/
theorem readLoop_escalates_checksum_error :
    ReadFrame [0x10, 0x40, 1, 0, 0x42, 0x16, 0xE5] 2 = (.error .checksumError, [0xE5]) ∧
    Master.readLoopStep [0x10, 0x40, 1, 0, 0x42, 0x16, 0xE5]
      = (.ok (.escalate .checksumError), [0xE5]) ∧
    Master.readLoop 3 [0x10, 0x40, 1, 0, 0x42, 0x16, 0xE5]
      = .ok ([.err .checksumError], true) ∧
    Master.mainSelect [] (.err .checksumError) = .ok (.fatal .checksumError) := by
  decide

/-- C7 (amended): in the master's receive loop every error `ReadFrame` returns
other than `io.EOF`, the framing errors included, is sent on `errorChan` and
ends the loop, with nothing else sent and nothing more read, and `main`, taking
it from `errorChan` in its `select`, terminates the process with `log.Fatalf`;
only `io.EOF` is retried: nothing is sent and the loop goes on with its next
iteration. -/
theorem readLoop_error_policy (reader : List Nat) (e : Err) (r : List Nat)
    (h : ReadFrame reader Master.linkAddrLen = (.error e, r)) :
    Master.readLoopStep reader = (.ok (if e = .eof then .retry else .escalate e), r) ∧
    (e ≠ .eof →
      Master.readLoopSends (.escalate e) = some (.err e) ∧
      (∀ fuel, Master.readLoop (fuel + 1) reader = .ok ([.err e], true)) ∧
      ∀ port, Master.mainSelect port (.err e) = .ok (.fatal e)) ∧
    (e = .eof →
      Master.readLoopSends .retry = none ∧
      ∀ fuel, Master.readLoop (fuel + 1) reader = Master.readLoop fuel r) := by
  have hstep : Master.readLoopStep reader
      = (.ok (if e = .eof then .retry else .escalate e), r) := by
    unfold Master.readLoopStep
    rw [h]
    by_cases he : e = .eof <;> simp [he]
  refine ⟨hstep, fun he => ⟨rfl, fun fuel => ?_, fun _ => rfl⟩, fun he => ⟨rfl, fun fuel => ?_⟩⟩
  · rw [Master.readLoop, hstep, if_neg he]
  · rw [Master.readLoop, hstep, if_pos he]

/-- C7 witness: a variable frame whose two length bytes differ, followed by a
valid single-character frame that is never read; and the empty input, on which
`ReadFrame` returns `io.EOF` and the loop goes on. -/
theorem readLoop_error_policy_witness :
    (ReadFrame [0x68, 3, 4, 0xE5] Master.linkAddrLen
        = (.error (.lengthMismatch 3 4), [0xE5]) ∧
      Master.readLoopStep [0x68, 3, 4, 0xE5]
        = (.ok (.escalate (.lengthMismatch 3 4)), [0xE5]) ∧
      Master.readLoop 2 [0x68, 3, 4, 0xE5] = .ok ([.err (.lengthMismatch 3 4)], true) ∧
      Master.mainSelect [[0xE5]] (.err (.lengthMismatch 3 4))
        = .ok (.fatal (.lengthMismatch 3 4))) ∧
    (ReadFrame [] Master.linkAddrLen = (.error .eof, []) ∧
      Master.readLoopStep [] = (.ok .retry, []) ∧
      Master.readLoop 2 [] = Master.readLoop 1 []) :=
  ⟨⟨by decide,
   (readLoop_error_policy [0x68, 3, 4, 0xE5] (.lengthMismatch 3 4) [0xE5] (by decide)).1,
   ((readLoop_error_policy [0x68, 3, 4, 0xE5] (.lengthMismatch 3 4) [0xE5] (by decide)).2.1
      (by decide)).2.1 1,
   ((readLoop_error_policy [0x68, 3, 4, 0xE5] (.lengthMismatch 3 4) [0xE5] (by decide)).2.1
      (by decide)).2.2 [[0xE5]]⟩,
   ⟨by decide,
    (readLoop_error_policy [] .eof [] (by decide)).1,
    ((readLoop_error_policy [] .eof [] (by decide)).2.2 rfl).2 1⟩⟩

/-- C8: for every well-formed frame `F` for address width `w`, `Encode` succeeds
and writes 1 byte (single-char), `4 + w` bytes (fixed) or `6 + L` bytes with
`L = 1 + w + |ASDU|` (variable), and `ReadFrame` with width `w` on those bytes
followed by any `rest` returns `F` and leaves exactly `rest`; hence reading as
many frames as were encoded from the concatenation of their encodings returns
them in order and leaves what follows. -/
theorem readFrame_consumes_one_frame (w : Int) :
    (∀ F : Frame, F.WellFormed w →
      ∃ buf, F.encodeBuf = .ok buf ∧
        ((buf.length : Int) = if F.IsSingleChar then 1 else if F.IsFixed then 4 + w
          else 6 + (1 + w + F.ASDU.length)) ∧
        ∀ rest, ReadFrame (buf ++ rest) w = (.ok F, rest)) ∧
    (∀ (Fs : List Frame) (bufs : List (List Nat)) (rest : List Nat),
      List.Forall₂ (fun F buf => F.WellFormed w ∧ F.encodeBuf = .ok buf) Fs bufs →
      readN w Fs.length (bufs.flatten ++ rest) = (.ok Fs, rest)) := by
  refine ⟨fun F hF => ?_, fun Fs bufs rest h => readN_encoded w Fs bufs rest h⟩
  obtain ⟨buf, hb, hl⟩ := wellFormed_encodeBuf w F hF
  obtain ⟨hc, hw⟩ := wellFormed_canonical w F hF
  exact ⟨buf, hb, hl, fun rest => readFrame_encodeBuf_append F w buf rest hc hw hb⟩

/-- C8 witness: a fixed frame, the single-char frame and a variable frame on
one stream, followed by a stray byte. -/
theorem readFrame_consumes_one_frame_witness :
    (∃ buf,
      Frame.encodeBuf
          { IsFixed := false, IsSingleChar := false, C := 8, A := 1, ALen := 2, ASDU := [7] }
        = .ok buf ∧
      ((buf.length : Int) = 6 + (1 + 2 + 1)) ∧
      ∀ rest, ReadFrame (buf ++ rest) 2
        = (.ok { IsFixed := false, IsSingleChar := false, C := 8, A := 1, ALen := 2,
                 ASDU := [7] }, rest)) ∧
    readN 2 3 ([[0x10, 0, 1, 0, 1, 0x16], [0xE5], [0x68, 4, 4, 0x68, 8, 1, 0, 7, 16, 0x16]].flatten
        ++ [9])
      = (.ok [{ IsFixed := true, IsSingleChar := false, C := 0, A := 1, ALen := 2, ASDU := [] },
              singleCharFrame,
              { IsFixed := false, IsSingleChar := false, C := 8, A := 1, ALen := 2,
                ASDU := [7] }], [9]) :=
  ⟨(readFrame_consumes_one_frame 2).1
      { IsFixed := false, IsSingleChar := false, C := 8, A := 1, ALen := 2, ASDU := [7] }
      (by decide),
   (readFrame_consumes_one_frame 2).2
      [{ IsFixed := true, IsSingleChar := false, C := 0, A := 1, ALen := 2, ASDU := [] },
       singleCharFrame,
       { IsFixed := false, IsSingleChar := false, C := 8, A := 1, ALen := 2, ASDU := [7] }]
      [[0x10, 0, 1, 0, 1, 0x16], [0xE5], [0x68, 4, 4, 0x68, 8, 1, 0, 7, 16, 0x16]] [9]
      (.cons ⟨by decide, by decide⟩ (.cons ⟨by decide, by decide⟩
        (.cons ⟨by decide, by decide⟩ .nil)))⟩

/-- C9: for every fixed or variable frame `F` with address width `w` in
`{1, 2}` on which `Encode` succeeds and every bit position `k` in `0..7`,
`ReadFrame` with width `w` on the encoded bytes with bit `k` of the checksum
byte (the second-to-last byte) flipped fails with the checksum error. -/
theorem checksum_bit_flip_rejected (F : Frame) (w : Int) (buf : List Nat) (k : Nat)
    (hw : w = 1 ∨ w = 2) (hF : F.ALen = w) (hs : F.IsSingleChar = false)
    (he : F.Encode [] = (none, [buf])) (_hk : k < 8) :
    (ReadFrame (flipBit buf (buf.length - 2) k) w).1 = .error .checksumError := by
  obtain ⟨b, hb, hbb⟩ := encodeBuf_of_encode F [] [buf] he
  have hbuf : buf = b := by simpa using hbb
  subst hbuf
  obtain ⟨fx, sc, C, A, ALen, asdu⟩ := F
  simp only at hs hF
  subst hs hF
  cases fx with
  | true =>
    simp only [Frame.encodeBuf, Bool.false_eq_true, if_false, if_true, Outcome.ok.injEq] at hb
    subst hb
    rw [flipBit_append_two]
    rcases hw with h | h
    · subst h
      simp only [addrBytes, if_true, List.cons_append, List.nil_append, List.sum_cons,
        List.sum_nil, Nat.add_zero, readFrame_fixed_one]
      simp [(xor_pow_ne _ k).symm]
    · subst h
      have h21 : (2 : Int) ≠ 1 := by decide
      simp only [addrBytes, h21, if_false, List.cons_append, List.nil_append, List.sum_cons,
        List.sum_nil, Nat.add_zero, readFrame_fixed_two _ _ _ _ _ _ h21]
      simp [(xor_pow_ne _ k).symm]
  | false =>
    have hlen : 1 + ALen + (asdu.length : Int) ≤ 255 := by
      by_contra hgt
      simp [Frame.encodeBuf, encodeLength_width ALen asdu.length hw, not_le.mp hgt] at hb
    rw [encodeBuf_variable C A ALen asdu hw hlen, Outcome.ok.injEq] at hb
    subst hb
    have hshape : StartCharVariable :: (C :: addrBytes A ALen ++ asdu).length ::
          (C :: addrBytes A ALen ++ asdu).length :: StartCharVariable ::
          ((C :: addrBytes A ALen ++ asdu) ++
            (C :: addrBytes A ALen ++ asdu).sum % 256 :: EndChar :: [])
        = (StartCharVariable :: (C :: addrBytes A ALen ++ asdu).length ::
          (C :: addrBytes A ALen ++ asdu).length :: StartCharVariable ::
          (C :: addrBytes A ALen ++ asdu)) ++
            [(C :: addrBytes A ALen ++ asdu).sum % 256, EndChar] := by simp
    rw [hshape, flipBit_append_two]
    have hv := readFrame_variable (C :: addrBytes A ALen ++ asdu)
      ((C :: addrBytes A ALen ++ asdu).sum % 256 ^^^ 2 ^ k) [] ALen
    simp only [List.cons_append, List.append_assoc, List.nil_append] at hv ⊢
    rw [hv]
    simp [(xor_pow_ne _ k).symm]

/-- C9 witness: bit 3 of the checksum byte of a variable frame with a two-byte
address. -/
theorem checksum_bit_flip_rejected_witness :
    (ReadFrame (flipBit [104, 6, 6, 104, 8, 1, 2, 7, 8, 9, 35, 22]
        ([104, 6, 6, 104, 8, 1, 2, 7, 8, 9, 35, 22].length - 2) 3) 2).1
      = .error .checksumError :=
  checksum_bit_flip_rejected
    { IsFixed := false, IsSingleChar := false, C := 8, A := 513, ALen := 2, ASDU := [7, 8, 9] }
    2 [104, 6, 6, 104, 8, 1, 2, 7, 8, 9, 35, 22] 3 (by decide) rfl rfl (by decide) (by decide)

/-- C10: on every stream that begins `68 l1 l2` with `l1 ≠ l2`, `ReadFrame`
fails with the length-mismatch error, for every address width and whatever
bytes follow; it has read just these three bytes. -/
theorem length_mismatch_rejected (l1 l2 : Nat) (rest : List Nat) (w : Int) (h : l1 ≠ l2) :
    ReadFrame (0x68 :: l1 :: l2 :: rest) w = (.error (.lengthMismatch l1 l2), rest) := by
  simp [ReadFrame, SingleCharAck, StartCharFixed, StartCharVariable, h]

/-- C10 witness: length bytes 11 and 12 in front of an otherwise complete
frame, address width 2. -/
theorem length_mismatch_rejected_witness :
    (11 : Nat) ≠ 12 ∧
    ReadFrame (0x68 :: 11 :: 12 :: [0x68, 8, 1, 0, 100, 1, 7, 1, 0, 0, 0, 20, 138, 0x16]) 2
      = (.error (.lengthMismatch 11 12),
         [0x68, 8, 1, 0, 100, 1, 7, 1, 0, 0, 0, 20, 138, 0x16]) :=
  ⟨by decide, length_mismatch_rejected 11 12 _ 2 (by decide)⟩

theorem littleEndianBytes_one (v : Nat) : littleEndianBytes 1 v = [v % 256] := by
  simp [littleEndianBytes, List.range_succ]

theorem littleEndianBytes_two (v : Nat) : littleEndianBytes 2 v = [v % 256, v / 256 % 256] := by
  simp [littleEndianBytes, List.range_succ]

theorem addrBytes_eq_littleEndianBytes (A : Nat) (w : Int) (hw : w = 1 ∨ w = 2) :
    addrBytes A w = littleEndianBytes w.toNat A := by
  rcases hw with h | h <;> subst h
  · simpa [addrBytes] using (littleEndianBytes_one A).symm
  · simpa [addrBytes] using (littleEndianBytes_two A).symm

/-- Decoding an encoded ASDU gives the ASDU back. -/
theorem decodeASDU_encode (a : ASDU) (h : a.CommonAddr < 65536) :
    DecodeASDU a.Encode = .ok a := by
  obtain ⟨t, v, c, ca, d⟩ := a
  simp only at h
  simp [DecodeASDU, ASDU.Encode, putUint16, getUint16_putUint16 ca h]

/-- C11 counterexample: `Encode` computes `1 + ALen + len(ASDU)` as a Go `int`.
With `ALen = 9223372036854775807` and an empty ASDU the exact sum is far above
255, but the `int` sum wraps to `-9223372036854775808`, the guard
`length > 255` is false, and `Encode` returns no error and writes
`68 00 00 68 08 01 00 09 16`. -/
theorem encode_wrapped_length_accepted :
    1 + (9223372036854775807 : Int) + (([] : List Nat).length : Int) > 255 ∧
    encodeLength 9223372036854775807 ([] : List Nat).length = -9223372036854775808 ∧
    Frame.Encode
        { IsFixed := false, IsSingleChar := false, C := 8, A := 1,
          ALen := 9223372036854775807, ASDU := [] } []
      = (none, [[0x68, 0, 0, 0x68, 8, 1, 0, 9, 0x16]]) := by
  decide

/-- C11 (amended): for a variable frame whose `ALen` is a Go `int` value, if
`1 + ALen + len(ASDU) > 255` and the sum does not overflow the `int` (it is
below `2^63`), `Encode` returns the frame-too-large error and leaves the writer
as it was; if `1 + ALen + len(ASDU) ≤ 255`, `Encode` returns no error and makes
one write. -/
theorem encode_oversized_atomic (F : Frame) (w : Port) (hf : F.IsFixed = false)
    (hs : F.IsSingleChar = false) (hA : -9223372036854775808 ≤ F.ALen) :
    (1 + F.ALen + (F.ASDU.length : Int) > 255 →
      1 + F.ALen + (F.ASDU.length : Int) < 9223372036854775808 →
      F.Encode w = (some .frameTooLarge, w)) ∧
    (1 + F.ALen + (F.ASDU.length : Int) ≤ 255 → ∃ buf, F.Encode w = (none, w ++ [buf])) := by
  constructor
  · intro h hhi
    have hx := encodeLength_exact F.ALen F.ASDU.length (by omega) hhi
    simp [Frame.Encode, Frame.encodeBuf, hf, hs, hx, h]
  · intro h
    have hx := encodeLength_exact F.ALen F.ASDU.length (by omega) (by omega)
    have h2 : ¬ (1 + F.ALen + (F.ASDU.length : Int) > 255) := not_lt.mpr h
    simp [Frame.Encode, Frame.encodeBuf, hf, hs, hx, h2]

/-- C11 witness: a 253-byte ASDU with a two-byte address is rejected and nothing
is written after the earlier write `[0xE5]`; a 252-byte ASDU is accepted. -/
theorem encode_oversized_atomic_witness :
    (1 + (2 : Int) + ((List.replicate 253 7).length : Int) > 255 ∧
      1 + (2 : Int) + ((List.replicate 253 7).length : Int) < 9223372036854775808 ∧
      Frame.Encode
          { IsFixed := false, IsSingleChar := false, C := 8, A := 1, ALen := 2,
            ASDU := List.replicate 253 7 } [[0xE5]]
        = (some .frameTooLarge, [[0xE5]])) ∧
    (1 + (2 : Int) + ((List.replicate 252 7).length : Int) ≤ 255 ∧
      ∃ buf,
        Frame.Encode
            { IsFixed := false, IsSingleChar := false, C := 8, A := 1, ALen := 2,
              ASDU := List.replicate 252 7 } [[0xE5]]
          = (none, [[0xE5]] ++ [buf])) :=
  ⟨⟨by rw [List.length_replicate]; decide, by rw [List.length_replicate]; decide,
    (encode_oversized_atomic
      { IsFixed := false, IsSingleChar := false, C := 8, A := 1, ALen := 2,
        ASDU := List.replicate 253 7 } [[0xE5]] rfl rfl (by decide)).1
      (by rw [List.length_replicate]; decide) (by rw [List.length_replicate]; decide)⟩,
   ⟨by rw [List.length_replicate]; decide, (encode_oversized_atomic
      { IsFixed := false, IsSingleChar := false, C := 8, A := 1, ALen := 2,
        ASDU := List.replicate 252 7 } [[0xE5]] rfl rfl (by decide)).2
      (by rw [List.length_replicate]; decide)⟩⟩

/-- C12: for a variable frame with address width `w` in `{1, 2}` and
`L = 1 + w + |ASDU| ≤ 255`, `Encode` returns no error and makes one write of
exactly `68 L L 68 C`, the link address in `w` bytes little-endian, the ASDU
bytes, `CS`, `16`, with `CS = (C + sum of the address bytes + sum of the ASDU
bytes) mod 256`; the write has `L + 6` bytes. -/
theorem variable_frame_wire_format (C A : Nat) (w : Int) (asdu : List Nat) (port : Port)
    (hw : w = 1 ∨ w = 2) (hlen : 1 + w + (asdu.length : Int) ≤ 255) :
    Frame.Encode
        { IsFixed := false, IsSingleChar := false, C := C, A := A, ALen := w, ASDU := asdu }
        port
      = (none, port ++ [[0x68, 1 + w.toNat + asdu.length, 1 + w.toNat + asdu.length, 0x68, C]
          ++ littleEndianBytes w.toNat A ++ asdu
          ++ [(C + (littleEndianBytes w.toNat A).sum + asdu.sum) % 256, 0x16]]) ∧
    ([0x68, 1 + w.toNat + asdu.length, 1 + w.toNat + asdu.length, 0x68, C]
          ++ littleEndianBytes w.toNat A ++ asdu
          ++ [(C + (littleEndianBytes w.toNat A).sum + asdu.sum) % 256, 0x16]).length
      = (1 + w.toNat + asdu.length) + 6 := by
  have he := encodeBuf_variable C A w asdu hw hlen
  rw [addrBytes_eq_littleEndianBytes A w hw] at he
  constructor
  · rw [encode_eq_of_encodeBuf _ port _ he]
    rcases hw with h | h <;> subst h <;>
      simp [littleEndianBytes_one, littleEndianBytes_two, StartCharVariable, EndChar,
        Nat.add_assoc, Nat.add_comm, Nat.add_left_comm]
  · rcases hw with h | h <;> subst h <;>
      simp [littleEndianBytes_one, littleEndianBytes_two] <;> omega

/-- C12 witness: control byte 8, address 513 in two bytes, ASDU `07 08 09`. -/
theorem variable_frame_wire_format_witness :
    Frame.Encode
        { IsFixed := false, IsSingleChar := false, C := 8, A := 513, ALen := 2,
          ASDU := [7, 8, 9] } []
      = (none, [[104, 6, 6, 104, 8, 1, 2, 7, 8, 9, 35, 22]]) := by
  have h := (variable_frame_wire_format 8 513 2 [7, 8, 9] [] (by decide) (by decide)).1
  rw [h]
  decide

/-- C13: for a fixed frame with address width `w` in `{1, 2}`, `Encode` returns
no error and makes one write of exactly `10 C`, the link address in `w` bytes
little-endian, `CS`, `16`, with `CS = (C + sum of the address bytes) mod 256`;
the write has `4 + w` bytes.  A single-char frame, whatever its other fields,
is written as the one byte `E5`. -/
theorem fixed_frame_wire_format (port : Port) :
    (∀ (C A : Nat) (w : Int) (asdu : List Nat), w = 1 ∨ w = 2 →
      Frame.Encode
          { IsFixed := true, IsSingleChar := false, C := C, A := A, ALen := w, ASDU := asdu }
          port
        = (none, port ++ [[0x10, C] ++ littleEndianBytes w.toNat A
            ++ [(C + (littleEndianBytes w.toNat A).sum) % 256, 0x16]]) ∧
      (([0x10, C] ++ littleEndianBytes w.toNat A
            ++ [(C + (littleEndianBytes w.toNat A).sum) % 256, 0x16]).length : Int)
        = 4 + w) ∧
    (∀ F : Frame, F.IsSingleChar = true → F.Encode port = (none, port ++ [[0xE5]])) := by
  constructor
  · intro C A w asdu hw
    have he : Frame.encodeBuf
        { IsFixed := true, IsSingleChar := false, C := C, A := A, ALen := w, ASDU := asdu }
        = .ok ([0x10, C] ++ littleEndianBytes w.toNat A
            ++ [(C + (littleEndianBytes w.toNat A).sum) % 256, 0x16]) := by
      rw [← addrBytes_eq_littleEndianBytes A w hw]
      simp [Frame.encodeBuf, StartCharFixed, EndChar]
    refine ⟨encode_eq_of_encodeBuf _ port _ he, ?_⟩
    rcases hw with h | h <;> subst h <;>
      simp [littleEndianBytes_one, littleEndianBytes_two]
  · intro F hF
    have he : F.encodeBuf = .ok [0xE5] := by
      simp [Frame.encodeBuf, hF, SingleCharAck]
    exact encode_eq_of_encodeBuf F port _ he

/-- C13 witness: the link-reset request `10 40 01 00 41 16` of the master, and
a single-char frame with stray fields. -/
theorem fixed_frame_wire_format_witness :
    Frame.Encode
        { IsFixed := true, IsSingleChar := false, C := 0x40, A := 1, ALen := 2, ASDU := [] } []
      = (none, [[0x10, 0x40, 1, 0, 0x41, 0x16]]) ∧
    Frame.Encode
        { IsFixed := true, IsSingleChar := true, C := 5, A := 9, ALen := 2, ASDU := [1] } []
      = (none, [[0xE5]]) := by
  have h := ((fixed_frame_wire_format []).1 0x40 1 2 [] (by decide)).1
  have h2 := (fixed_frame_wire_format []).2
    { IsFixed := true, IsSingleChar := true, C := 5, A := 9, ALen := 2, ASDU := [1] } rfl
  refine ⟨?_, h2⟩
  rw [h]
  decide

/-- C14: for every ASDU `a` (any TypeID, VSQ, COT, any 16-bit CommonAddr and any
Data, the empty one included), `DecodeASDU (a.Encode)` succeeds and returns an
ASDU with the same TypeID, VSQ, COT, CommonAddr and Data. -/
theorem asdu_roundtrip (a : ASDU) (h : a.CommonAddr < 65536) :
    DecodeASDU a.Encode = .ok a ∧ a.Encode.length = 5 + a.Data.length := by
  refine ⟨decodeASDU_encode a h, ?_⟩
  simp [ASDU.Encode, putUint16]
  omega

/-- C14 witness: an ASDU of an unknown type with no data and common address
`0xABCD`. -/
theorem asdu_roundtrip_witness :
    (0xABCD : Nat) < 65536 ∧
    DecodeASDU [200, 1, 3, 0xCD, 0xAB]
      = .ok { TypeID := 200, VSQ := 1, COT := 3, CommonAddr := 0xABCD, Data := [] } :=
  ⟨by decide,
   (asdu_roundtrip { TypeID := 200, VSQ := 1, COT := 3, CommonAddr := 0xABCD, Data := [] }
      (by decide)).1⟩

/-- C15: for every `d` of at least 5 bytes, whatever `d[0]` is, `DecodeASDU`
succeeds with `TypeID = d[0]`, `VSQ = d[1]`, `COT = d[2]`,
`CommonAddr = d[3] + 256 * d[4]` and `Data` the bytes of `d` from offset 5 on. -/
theorem decodeASDU_layout (d : List Nat) (h : 5 ≤ d.length) :
    DecodeASDU d
      = .ok { TypeID := d.getD 0 0, VSQ := d.getD 1 0, COT := d.getD 2 0,
              CommonAddr := d.getD 3 0 + 256 * d.getD 4 0, Data := d.drop 5 } := by
  match d, h with
  | d0 :: d1 :: d2 :: d3 :: d4 :: rest, _ =>
    simp [DecodeASDU, getUint16]

/-- C15 witness: typeID 200, which no handler knows, with two data bytes. -/
theorem decodeASDU_layout_witness :
    5 ≤ [200, 1, 3, 0xCD, 0xAB, 7, 8].length ∧
    DecodeASDU [200, 1, 3, 0xCD, 0xAB, 7, 8]
      = .ok { TypeID := 200, VSQ := 1, COT := 3, CommonAddr := 0xCD + 256 * 0xAB,
              Data := [7, 8] } :=
  ⟨by decide, decodeASDU_layout [200, 1, 3, 0xCD, 0xAB, 7, 8] (by decide)⟩

/-- C16: for every 16-bit `ioa`, every `value` in `[-32768, 32767]` and every
quality byte, `ParseSetpointScaled (EncodeMeasuredValueScaled ioa value quality)`
returns `(ioa, value, quality)` and no error. -/
theorem scaled_value_roundtrip (ioa : Nat) (value : Int) (quality : Nat) (hioa : ioa < 65536)
    (hlo : -32768 ≤ value) (hhi : value ≤ 32767) :
    ParseSetpointScaled (EncodeMeasuredValueScaled ioa value quality)
      = (ioa, value, quality, none) :=
  parseSetpointScaled_encode ioa value quality hioa ⟨hlo, hhi⟩

/-- C16 witness: the most negative value, `-32768`, at ioa 2. -/
theorem scaled_value_roundtrip_witness :
    ParseSetpointScaled (EncodeMeasuredValueScaled 2 (-32768) 0) = (2, -32768, 0, none) ∧
    EncodeMeasuredValueScaled 2 (-32768) 0 = [2, 0, 0, 128, 0] :=
  ⟨scaled_value_roundtrip 2 (-32768) 0 (by decide) (by decide) (by decide), by decide⟩

/-- C17: `EncodeInterrogation ioa q` is the 3 bytes `[ioa mod 256, ioa div 256, q]`
and `EncodeMeasuredValueScaled ioa v q` is the 5 bytes
`[ioa mod 256, ioa div 256, u mod 256, u div 256, q]` with `u = v mod 65536`, for
every 16-bit `ioa`; `v` enters only through `u`. -/
theorem payload_encoder_layouts (ioa q : Nat) (v : Int) (hioa : ioa < 65536) :
    EncodeInterrogation ioa q = [ioa % 256, ioa / 256, q] ∧
    EncodeMeasuredValueScaled ioa v q
      = [ioa % 256, ioa / 256, (v % 65536).toNat % 256, (v % 65536).toNat / 256, q] := by
  have h1 : ioa / 256 % 256 = ioa / 256 := Nat.mod_eq_of_lt (by omega)
  have h2 : (v % 65536).toNat / 256 % 256 = (v % 65536).toNat / 256 :=
    Nat.mod_eq_of_lt (by omega)
  simp [EncodeInterrogation, EncodeMeasuredValueScaled, putUint16, toUint16, h1, h2]

/-- C17 witness: ioa `0x0102`, value `-2` (`u = 0xFFFE`), qualifier 20. -/
theorem payload_encoder_layouts_witness :
    EncodeInterrogation 0x0102 20 = [2, 1, 20] ∧
    EncodeMeasuredValueScaled 0x0102 (-2) 20 = [2, 1, 254, 255, 20] := by
  have h := payload_encoder_layouts 0x0102 20 (-2) (by decide)
  exact ⟨h.1.trans (by decide), h.2.trans (by decide)⟩

/-- C18: `ParseInterrogation` returns an error exactly when its input has fewer
than 3 bytes and `ParseSetpointScaled` exactly when its input has fewer than 5;
on error every returned value is zero; on success the result is that of the
first 3 (respectively 5) bytes alone. -/
theorem payload_decoders_short_input (d : List Nat) :
    ((ParseInterrogation d).2.2 ≠ none ↔ d.length < 3) ∧
    (d.length < 3 → ParseInterrogation d = (0, 0, some .interrogationTooShort)) ∧
    (3 ≤ d.length → ParseInterrogation d = ParseInterrogation (d.take 3)) ∧
    ((ParseSetpointScaled d).2.2.2 ≠ none ↔ d.length < 5) ∧
    (d.length < 5 → ParseSetpointScaled d = (0, 0, 0, some .setpointTooShort)) ∧
    (5 ≤ d.length → ParseSetpointScaled d = ParseSetpointScaled (d.take 5)) := by
  refine ⟨?_, ?_, ?_, ?_, ?_, ?_⟩
  · by_cases h : d.length < 3 <;> simp [ParseInterrogation, h]
  · intro h; simp [ParseInterrogation, h]
  · intro h
    match d, h with
    | d0 :: d1 :: d2 :: rest, _ => simp [ParseInterrogation]
  · by_cases h : d.length < 5 <;> simp [ParseSetpointScaled, h]
  · intro h; simp [ParseSetpointScaled, h]
  · intro h
    match d, h with
    | d0 :: d1 :: d2 :: d3 :: d4 :: rest, _ => simp [ParseSetpointScaled]

/-- C18 witness: a two-byte and a four-byte input fail with zero values; inputs
with trailing bytes decode as their first 3 and 5 bytes. -/
theorem payload_decoders_short_input_witness :
    ParseInterrogation [1, 2] = (0, 0, some .interrogationTooShort) ∧
    ParseInterrogation [0, 0, 20, 99] = ParseInterrogation ([0, 0, 20, 99].take 3) ∧
    ParseSetpointScaled [2, 0, 20, 80] = (0, 0, 0, some .setpointTooShort) ∧
    ParseSetpointScaled [2, 0, 20, 80, 0, 99]
      = ParseSetpointScaled ([2, 0, 20, 80, 0, 99].take 5) :=
  ⟨(payload_decoders_short_input [1, 2]).2.1 (by decide),
   (payload_decoders_short_input [0, 0, 20, 99]).2.2.1 (by decide),
   (payload_decoders_short_input [2, 0, 20, 80]).2.2.2.2.1 (by decide),
   (payload_decoders_short_input [2, 0, 20, 80, 0, 99]).2.2.2.2.2 (by decide)⟩

/-- The three outcomes of `DecodeASDU`, by the length of its input. -/
theorem decodeASDU_cases (d : List Nat) :
    (d.length < 4 ∧ DecodeASDU d = .error .asduTooShort) ∨
    (d.length = 4 ∧ DecodeASDU d = .panic) ∨
    (5 ≤ d.length ∧ ∃ a, DecodeASDU d = .ok a) := by
  match d with
  | [] => left; simp [DecodeASDU]
  | [_] => left; simp [DecodeASDU]
  | [_, _] => left; simp [DecodeASDU]
  | [_, _, _] => left; simp [DecodeASDU]
  | [_, _, _, _] => right; left; simp [DecodeASDU]
  | d0 :: d1 :: d2 :: d3 :: d4 :: rest =>
    right; right
    have hlen : ¬ (d0 :: d1 :: d2 :: d3 :: d4 :: rest).length < 4 := by
      simp only [List.length_cons]; omega
    refine ⟨by simp only [List.length_cons]; omega,
      { TypeID := d0, VSQ := d1, COT := d2, CommonAddr := getUint16 d3 d4, Data := rest }, ?_⟩
    simp only [DecodeASDU, if_neg hlen]

/-- An iteration of `handleConnection` is `ReadFrame` followed by `dispatch`. -/
theorem handleConnectionStep_eq_dispatch (st : Slave.State) (port : Port) (reader : List Nat) :
    Slave.handleConnectionStep st port reader
      = match ReadFrame reader Slave.linkAddrLen with
        | (.error _, r) => .ok (st, port, r)
        | (.panic, _) => .panic
        | (.ok frame, r) =>
          match Slave.dispatch st port frame with
          | .ok (st, port) => .ok (st, port, r)
          | .error e => .error e
          | .panic => .panic := by
  unfold Slave.handleConnectionStep Slave.dispatch
  split
  · rfl
  · rfl
  · rename_i frame r _
    by_cases hf : frame.IsFixed = true <;> simp [hf]

/-- What `handleSetpoint` does to the point values. -/
theorem handleSetpoint_state (st : Slave.State) (port : Port) (la : Nat) (req : ASDU) :
    (Slave.handleSetpoint st port la req).1.powerDrawn = st.powerDrawn ∧
    ((Slave.handleSetpoint st port la req).1.powerLimitation = st.powerLimitation ∨
      (5 ≤ req.Data.length ∧ (ParseSetpointScaled req.Data).1 = 2 ∧
        (Slave.handleSetpoint st port la req).1.powerLimitation
          = (ParseSetpointScaled req.Data).2.1)) := by
  by_cases h : req.Data.length < 5
  · simp [Slave.handleSetpoint, ParseSetpointScaled, h]
  · have h5 : 5 ≤ req.Data.length := Nat.le_of_not_lt h
    simp only [Slave.handleSetpoint, ParseSetpointScaled, if_neg h]
    by_cases h2 : getUint16 (req.Data.getD 0 0) (req.Data.getD 1 0) = 2
    · rw [if_pos h2]
      exact ⟨rfl, Or.inr ⟨h5, h2, rfl⟩⟩
    · rw [if_neg h2]
      exact ⟨rfl, Or.inl rfl⟩

/-- C19: dispatching an inbound frame never returns an error and panics exactly
on a non-fixed frame with a four-byte ASDU (in `DecodeASDU`, before any handler
runs); whenever it completes, `powerDrawn` is unchanged, and `powerLimitation`
is unchanged unless the frame is not fixed and its ASDU decodes with typeID 48
and a payload of at least 5 bytes with `ioa = 2`, in which case it is the
payload's value. -/
theorem state_changed_only_by_setpoint (st : Slave.State) (port : Port) (frame : Frame) :
    (Slave.dispatch st port frame = .panic ↔ (frame.IsFixed = false ∧ frame.ASDU.length = 4)) ∧
    (∀ e, Slave.dispatch st port frame ≠ .error e) ∧
    (∀ st2 port2, Slave.dispatch st port frame = .ok (st2, port2) →
      st2.powerDrawn = st.powerDrawn ∧
      (st2.powerLimitation = st.powerLimitation ∨
        (frame.IsFixed = false ∧
          ∃ asdu, DecodeASDU frame.ASDU = .ok asdu ∧ asdu.TypeID = 48 ∧
            5 ≤ asdu.Data.length ∧ (ParseSetpointScaled asdu.Data).1 = 2 ∧
            st2.powerLimitation = (ParseSetpointScaled asdu.Data).2.1))) := by
  by_cases hf : frame.IsFixed = true
  · simp [Slave.dispatch, hf]
  · have hf2 : frame.IsFixed = false := by simpa using hf
    simp only [Slave.dispatch, hf2, Bool.false_eq_true, if_false, true_and]
    rcases decodeASDU_cases frame.ASDU with ⟨hl, hd⟩ | ⟨hl, hd⟩ | ⟨hl, a, hd⟩
    · simp only [Slave.handleVariableFrame, hd]
      refine ⟨⟨fun h => by simp at h, fun h => by omega⟩, fun e => by simp, ?_⟩
      intro st2 port2 h
      simp only [Outcome.ok.injEq, Prod.mk.injEq] at h
      obtain ⟨h1, _⟩ := h
      subst h1
      exact ⟨rfl, Or.inl rfl⟩
    · simp only [Slave.handleVariableFrame, hd]
      refine ⟨⟨fun _ => hl, fun _ => ?_⟩, fun e => by simp, fun st2 port2 h => by simp at h⟩
      first | rfl | trivial
    · simp only [Slave.handleVariableFrame, hd]
      refine ⟨⟨?_, fun h => by omega⟩, ?_, ?_⟩
      · intro h
        exfalso
        split at h
        · simp at h
        · split at h <;> simp at h
      · intro e
        split
        · simp
        · split <;> simp
      · intro st2 port2 h
        by_cases h100 : a.TypeID = TypeC_IC_NA_1
        · rw [if_pos h100] at h
          simp only [Outcome.ok.injEq, Prod.mk.injEq] at h
          obtain ⟨h1, _⟩ := h
          subst h1
          exact ⟨rfl, Or.inl rfl⟩
        · by_cases h48 : a.TypeID = TypeC_SE_NB_1
          · rw [if_neg h100, if_pos h48] at h
            simp only [Outcome.ok.injEq] at h
            have hs := handleSetpoint_state st port frame.A a
            rw [h] at hs
            refine ⟨hs.1, hs.2.imp id ?_⟩
            rintro ⟨h5, hi, hv⟩
            exact ⟨a, rfl, h48, h5, hi, hv⟩
          · rw [if_neg h100, if_neg h48] at h
            simp only [Outcome.ok.injEq, Prod.mk.injEq] at h
            obtain ⟨h1, _⟩ := h
            subst h1
            exact ⟨rfl, Or.inl rfl⟩

/-- C19 witness: a setpoint for ioa 3 leaves `(1234, 22000)` as it is, and the
general statement applied to that dispatch. -/
theorem state_changed_only_by_setpoint_witness :
    Slave.dispatch { powerDrawn := 1234, powerLimitation := 22000 } []
        { IsFixed := false, IsSingleChar := false, C := 0x43, A := 1, ALen := 2,
          ASDU := [48, 1, 6, 1, 0, 3, 0, 20, 80, 0] }
      = .ok ({ powerDrawn := 1234, powerLimitation := 22000 },
             [[104, 13, 13, 104, 8, 1, 0, 48, 1, 7, 1, 0, 3, 0, 20, 80, 0, 169, 22]]) ∧
    ((1234 : Int) = 1234 ∧
      ((22000 : Int) = 22000 ∨
        ((false : Bool) = false ∧
          ∃ asdu, DecodeASDU [48, 1, 6, 1, 0, 3, 0, 20, 80, 0] = .ok asdu ∧ asdu.TypeID = 48 ∧
            5 ≤ asdu.Data.length ∧ (ParseSetpointScaled asdu.Data).1 = 2 ∧
            (22000 : Int) = (ParseSetpointScaled asdu.Data).2.1))) :=
  ⟨by decide,
   (state_changed_only_by_setpoint { powerDrawn := 1234, powerLimitation := 22000 } []
      { IsFixed := false, IsSingleChar := false, C := 0x43, A := 1, ALen := 2,
        ASDU := [48, 1, 6, 1, 0, 3, 0, 20, 80, 0] }).2.2
      { powerDrawn := 1234, powerLimitation := 22000 }
      [[104, 13, 13, 104, 8, 1, 0, 48, 1, 7, 1, 0, 3, 0, 20, 80, 0, 169, 22]] (by decide)⟩

/-- The four writes of `handleInterrogation` on a request whose payload parses to
`(ioa, qoi)`. -/
theorem handleInterrogation_writes (st : Slave.State) (port : Port) (la : Nat) (req : ASDU)
    (ioa qoi : Nat) (hp : ParseInterrogation req.Data = (ioa, qoi, none)) :
    ∃ b1 b2 b3 b4 : List Nat,
      Frame.encodeBuf
          { IsFixed := false, IsSingleChar := false, C := 8, A := la, ALen := 2,
            ASDU := ASDU.Encode
              { TypeID := 100, VSQ := 1, COT := 7, CommonAddr := req.CommonAddr,
                Data := EncodeInterrogation ioa qoi } }
        = .ok b1 ∧
      Frame.encodeBuf
          { IsFixed := false, IsSingleChar := false, C := 8, A := la, ALen := 2,
            ASDU := ASDU.Encode
              { TypeID := 11, VSQ := 1, COT := 20, CommonAddr := req.CommonAddr,
                Data := EncodeMeasuredValueScaled 1 st.powerDrawn 0 } }
        = .ok b2 ∧
      Frame.encodeBuf
          { IsFixed := false, IsSingleChar := false, C := 8, A := la, ALen := 2,
            ASDU := ASDU.Encode
              { TypeID := 11, VSQ := 1, COT := 20, CommonAddr := req.CommonAddr,
                Data := EncodeMeasuredValueScaled 2 st.powerLimitation 0 } }
        = .ok b3 ∧
      Frame.encodeBuf
          { IsFixed := false, IsSingleChar := false, C := 8, A := la, ALen := 2,
            ASDU := ASDU.Encode
              { TypeID := 100, VSQ := 1, COT := 10, CommonAddr := req.CommonAddr,
                Data := EncodeInterrogation ioa qoi } }
        = .ok b4 ∧
      Slave.handleInterrogation st port la req = port ++ [b1, b2, b3, b4] := by
  obtain ⟨b1, h1, e1⟩ := sendASDU_eq port la 100 7 req.CommonAddr
    (EncodeInterrogation ioa qoi) (by simp [EncodeInterrogation, putUint16])
  obtain ⟨b2, h2, e2⟩ := sendASDU_eq (port ++ [b1]) la 11 20 req.CommonAddr
    (EncodeMeasuredValueScaled 1 st.powerDrawn 0)
    (by simp [EncodeMeasuredValueScaled, putUint16])
  obtain ⟨b3, h3, e3⟩ := sendASDU_eq (port ++ [b1] ++ [b2]) la 11 20 req.CommonAddr
    (EncodeMeasuredValueScaled 2 st.powerLimitation 0)
    (by simp [EncodeMeasuredValueScaled, putUint16])
  obtain ⟨b4, h4, e4⟩ := sendASDU_eq (port ++ [b1] ++ [b2] ++ [b3]) la 100 10 req.CommonAddr
    (EncodeInterrogation ioa qoi) (by simp [EncodeInterrogation, putUint16])
  refine ⟨b1, b2, b3, b4, h1, h2, h3, h4, ?_⟩
  unfold Slave.handleInterrogation
  rw [hp]
  simp only [TypeC_IC_NA_1, TypeM_ME_NB_1, CauseActCon, CauseInrogen, CauseActTerm]
  rw [e1, e2, e3, e4]
  simp

/-- A reply frame of the outstation is well-formed for address width 2 when its
ASDU has at most 252 bytes. -/
theorem replyFrame_wellFormed (la : Nat) (asdu : List Nat) (hla : la < 65536)
    (h : asdu.length ≤ 252) :
    Frame.WellFormed 2
      { IsFixed := false, IsSingleChar := false, C := 8, A := la, ALen := 2, ASDU := asdu } := by
  refine Or.inr ⟨rfl, rfl, Or.inr ⟨rfl, hla⟩, ?_⟩
  simp only [Bool.false_eq_true, if_false]
  omega

/-- What the master logs for a variable frame whose ASDU is the encoding of
`a`. -/
theorem handleFrame_encoded (c la : Nat) (w : Int) (a : ASDU) (h : a.CommonAddr < 65536) :
    Master.handleFrame
        { IsFixed := false, IsSingleChar := false, C := c, A := la, ALen := w,
          ASDU := a.Encode }
      = (if a.TypeID = 11 then
           .ok [.asduReceived a.TypeID a.COT,
                .data (ParseSetpointScaled a.Data).1 (ParseSetpointScaled a.Data).2.1
                  (ParseSetpointScaled a.Data).2.2.1]
         else if a.TypeID = 100 then
           (if a.COT = 7 then .ok [.asduReceived a.TypeID a.COT, .interrogationConfirmed]
            else if a.COT = 10 then .ok [.asduReceived a.TypeID a.COT, .interrogationCompleted]
            else .ok [.asduReceived a.TypeID a.COT])
         else if a.TypeID = 48 then
           (if a.COT = 7 then .ok [.asduReceived a.TypeID a.COT, .setpointConfirmed]
            else .ok [.asduReceived a.TypeID a.COT])
         else .ok [.asduReceived a.TypeID a.COT]) := by
  simp only [Master.handleFrame, Bool.false_eq_true, if_false, decodeASDU_encode a h,
    TypeM_ME_NB_1, TypeC_IC_NA_1, TypeC_SE_NB_1, CauseActCon, CauseActTerm]

/-- C20: the master's `sendInterrogation` writes one variable frame (control
`0x43`, link address 1, ASDU typeID 100, VSQ 1, cause 6, common address 1,
payload ioa 0 and qualifier 20); the outstation reads it with width 2 and
`handleVariableFrame`, in any state `(pd, pl)`, answers with four writes and
leaves the state; the master reads the four replies off the stream with width 2
and decodes their ASDUs, which have (typeID, cause) `(100, 7)`, `(11, 20)`,
`(11, 20)`, `(100, 10)` in this order, the second and third payloads parsing to
`(1, pd, 0)` and `(2, pl, 0)`; `handleFrame` reports interrogation confirmed,
the two measurements, then interrogation completed. -/
theorem interrogation_end_to_end (pd pl : Int) (hpd : -32768 ≤ pd ∧ pd ≤ 32767)
    (hpl : -32768 ≤ pl ∧ pl ≤ 32767) :
    ∃ (req : List Nat) (f : Frame) (b1 b2 b3 b4 : List Nat) (f1 f2 f3 f4 : Frame)
      (a1 a2 a3 a4 : ASDU),
      Master.sendInterrogation [] Master.linkAddr Master.commonAddr = [req] ∧
      req = [0x68, 11, 11, 0x68, 0x43, 1, 0, 100, 1, 6, 1, 0, 0, 0, 20, 0xC4, 0x16] ∧
      ReadFrame req Slave.linkAddrLen = (.ok f, []) ∧
      Slave.handleVariableFrame { powerDrawn := pd, powerLimitation := pl } [] f
        = .ok ({ powerDrawn := pd, powerLimitation := pl }, [b1, b2, b3, b4]) ∧
      readN Master.linkAddrLen 4 (b1 ++ b2 ++ b3 ++ b4) = (.ok [f1, f2, f3, f4], []) ∧
      DecodeASDU f1.ASDU = .ok a1 ∧ DecodeASDU f2.ASDU = .ok a2 ∧
      DecodeASDU f3.ASDU = .ok a3 ∧ DecodeASDU f4.ASDU = .ok a4 ∧
      (a1.TypeID, a1.COT) = (100, 7) ∧ (a2.TypeID, a2.COT) = (11, 20) ∧
      (a3.TypeID, a3.COT) = (11, 20) ∧ (a4.TypeID, a4.COT) = (100, 10) ∧
      ParseSetpointScaled a2.Data = (1, pd, 0, none) ∧
      ParseSetpointScaled a3.Data = (2, pl, 0, none) ∧
      Master.handleFrame f1 = .ok [.asduReceived 100 7, .interrogationConfirmed] ∧
      Master.handleFrame f2 = .ok [.asduReceived 11 20, .data 1 pd 0] ∧
      Master.handleFrame f3 = .ok [.asduReceived 11 20, .data 2 pl 0] ∧
      Master.handleFrame f4 = .ok [.asduReceived 100 10, .interrogationCompleted] := by
  have hreq : Master.sendInterrogation [] Master.linkAddr Master.commonAddr
      = [[0x68, 11, 11, 0x68, 0x43, 1, 0, 100, 1, 6, 1, 0, 0, 0, 20, 0xC4, 0x16]] := by
    decide
  have hread : ReadFrame [0x68, 11, 11, 0x68, 0x43, 1, 0, 100, 1, 6, 1, 0, 0, 0, 20, 0xC4, 0x16]
      Slave.linkAddrLen
      = (.ok { IsFixed := false, IsSingleChar := false, C := 0x43, A := 1, ALen := 2,
               ASDU := [100, 1, 6, 1, 0, 0, 0, 20] }, []) := by
    decide
  have hdec : DecodeASDU [100, 1, 6, 1, 0, 0, 0, 20]
      = .ok { TypeID := 100, VSQ := 1, COT := 6, CommonAddr := 1, Data := [0, 0, 20] } := by
    decide
  obtain ⟨b1, b2, b3, b4, h1, h2, h3, h4, hw⟩ :=
    handleInterrogation_writes { powerDrawn := pd, powerLimitation := pl } [] 1
      { TypeID := 100, VSQ := 1, COT := 6, CommonAddr := 1, Data := [0, 0, 20] } 0 20
      (by decide)
  have hca : (1 : Nat) < 65536 := by decide
  have hp2 := parseSetpointScaled_encode 1 pd 0 (by decide) hpd
  have hp3 := parseSetpointScaled_encode 2 pl 0 (by decide) hpl
  have hwf : ∀ a : ASDU, a.Data.length ≤ 5 →
      Frame.WellFormed 2
        { IsFixed := false, IsSingleChar := false, C := 8, A := 1, ALen := 2,
          ASDU := a.Encode } := by
    intro a ha
    apply replyFrame_wellFormed 1 _ (by decide)
    simp [ASDU.Encode, putUint16]
    omega
  have hrn := readN_encoded 2 _ _ []
    (List.Forall₂.cons ⟨hwf _ (by simp [EncodeInterrogation, putUint16]), h1⟩
      (List.Forall₂.cons ⟨hwf _ (by simp [EncodeMeasuredValueScaled, putUint16]), h2⟩
        (List.Forall₂.cons ⟨hwf _ (by simp [EncodeMeasuredValueScaled, putUint16]), h3⟩
          (List.Forall₂.cons ⟨hwf _ (by simp [EncodeInterrogation, putUint16]), h4⟩
            List.Forall₂.nil))))
  refine ⟨_, _, b1, b2, b3, b4,
      { IsFixed := false, IsSingleChar := false, C := 8, A := 1, ALen := 2,
        ASDU := ASDU.Encode
          { TypeID := 100, VSQ := 1, COT := 7, CommonAddr := 1, Data := EncodeInterrogation 0 20 } },
      { IsFixed := false, IsSingleChar := false, C := 8, A := 1, ALen := 2,
        ASDU := ASDU.Encode
          { TypeID := 11, VSQ := 1, COT := 20, CommonAddr := 1, Data := EncodeMeasuredValueScaled 1 pd 0 } },
      { IsFixed := false, IsSingleChar := false, C := 8, A := 1, ALen := 2,
        ASDU := ASDU.Encode
          { TypeID := 11, VSQ := 1, COT := 20, CommonAddr := 1, Data := EncodeMeasuredValueScaled 2 pl 0 } },
      { IsFixed := false, IsSingleChar := false, C := 8, A := 1, ALen := 2,
        ASDU := ASDU.Encode
          { TypeID := 100, VSQ := 1, COT := 10, CommonAddr := 1, Data := EncodeInterrogation 0 20 } },
      { TypeID := 100, VSQ := 1, COT := 7, CommonAddr := 1, Data := EncodeInterrogation 0 20 },
      { TypeID := 11, VSQ := 1, COT := 20, CommonAddr := 1, Data := EncodeMeasuredValueScaled 1 pd 0 },
      { TypeID := 11, VSQ := 1, COT := 20, CommonAddr := 1, Data := EncodeMeasuredValueScaled 2 pl 0 },
      { TypeID := 100, VSQ := 1, COT := 10, CommonAddr := 1, Data := EncodeInterrogation 0 20 },
      hreq, rfl, hread, ?_, ?_,
      decodeASDU_encode _ hca, decodeASDU_encode _ hca,
      decodeASDU_encode _ hca, decodeASDU_encode _ hca,
      rfl, rfl, rfl, rfl, hp2, hp3, ?_, ?_, ?_, ?_⟩
  · simp only [Slave.handleVariableFrame, hdec, TypeC_IC_NA_1, if_true]
    rw [hw]
    rfl
  · simpa [Master.linkAddrLen] using hrn
  · rw [handleFrame_encoded 8 1 2 _ hca]
    simp
  · rw [handleFrame_encoded 8 1 2 _ hca]
    simp [hp2]
  · rw [handleFrame_encoded 8 1 2 _ hca]
    simp [hp3]
  · rw [handleFrame_encoded 8 1 2 _ hca]
    simp

/-- C20 witness: the outstation state `(1234, 22000)`. -/
theorem interrogation_end_to_end_witness :
    (-32768 ≤ (1234 : Int) ∧ (1234 : Int) ≤ 32767) ∧
    (-32768 ≤ (22000 : Int) ∧ (22000 : Int) ≤ 32767) ∧
    (∃ (req : List Nat) (f : Frame) (b1 b2 b3 b4 : List Nat) (f1 f2 f3 f4 : Frame)
      (a1 a2 a3 a4 : ASDU),
      Master.sendInterrogation [] Master.linkAddr Master.commonAddr = [req] ∧
      req = [0x68, 11, 11, 0x68, 0x43, 1, 0, 100, 1, 6, 1, 0, 0, 0, 20, 0xC4, 0x16] ∧
      ReadFrame req Slave.linkAddrLen = (.ok f, []) ∧
      Slave.handleVariableFrame { powerDrawn := 1234, powerLimitation := 22000 } [] f
        = .ok ({ powerDrawn := 1234, powerLimitation := 22000 }, [b1, b2, b3, b4]) ∧
      readN Master.linkAddrLen 4 (b1 ++ b2 ++ b3 ++ b4) = (.ok [f1, f2, f3, f4], []) ∧
      DecodeASDU f1.ASDU = .ok a1 ∧ DecodeASDU f2.ASDU = .ok a2 ∧
      DecodeASDU f3.ASDU = .ok a3 ∧ DecodeASDU f4.ASDU = .ok a4 ∧
      (a1.TypeID, a1.COT) = (100, 7) ∧ (a2.TypeID, a2.COT) = (11, 20) ∧
      (a3.TypeID, a3.COT) = (11, 20) ∧ (a4.TypeID, a4.COT) = (100, 10) ∧
      ParseSetpointScaled a2.Data = (1, 1234, 0, none) ∧
      ParseSetpointScaled a3.Data = (2, 22000, 0, none) ∧
      Master.handleFrame f1 = .ok [.asduReceived 100 7, .interrogationConfirmed] ∧
      Master.handleFrame f2 = .ok [.asduReceived 11 20, .data 1 1234 0] ∧
      Master.handleFrame f3 = .ok [.asduReceived 11 20, .data 2 22000 0] ∧
      Master.handleFrame f4 = .ok [.asduReceived 100 10, .interrogationCompleted]) :=
  ⟨by decide, by decide, interrogation_end_to_end 1234 22000 (by decide) (by decide)⟩

/-- C21 (the code fails it): on the variable frame with `ALen = 0` (the struct's
zero value), control byte 8, address 1 and ASDU `07 08 09`, `Encode` returns no
error and writes `68 04 04 68 08 01 00 07 08 09 21 16`: the length byte is 4,
but 6 bytes lie between the second `68` and the checksum, because the address
is written in two bytes whenever `ALen` is not 1.  `ReadFrame`, trusting the
length byte, takes `08` for the checksum and `09` for the end byte and fails.
With `ALen = 3` the length byte is 7 for the same 6 bytes. -/
theorem encode_declared_length_mismatch :
    Frame.Encode
        { IsFixed := false, IsSingleChar := false, C := 8, A := 1, ALen := 0,
          ASDU := [7, 8, 9] } []
      = (none, [[0x68, 4, 4, 0x68, 8, 1, 0, 7, 8, 9, 0x21, 0x16]]) ∧
    declaredLength [0x68, 4, 4, 0x68, 8, 1, 0, 7, 8, 9, 0x21, 0x16] = 4 ∧
    writtenBodyLength [0x68, 4, 4, 0x68, 8, 1, 0, 7, 8, 9, 0x21, 0x16] = 6 ∧
    ReadFrame [0x68, 4, 4, 0x68, 8, 1, 0, 7, 8, 9, 0x21, 0x16] 0
      = (.error (.invalidEndChar 9), [0x21, 0x16]) ∧
    ReadFrame [0x68, 4, 4, 0x68, 8, 1, 0, 7, 8, 9, 0x21, 0x16] 2
      = (.error (.invalidEndChar 9), [0x21, 0x16]) ∧
    Frame.Encode
        { IsFixed := false, IsSingleChar := false, C := 8, A := 1, ALen := 3,
          ASDU := [7, 8, 9] } []
      = (none, [[0x68, 7, 7, 0x68, 8, 1, 0, 7, 8, 9, 0x21, 0x16]]) ∧
    declaredLength [0x68, 7, 7, 0x68, 8, 1, 0, 7, 8, 9, 0x21, 0x16] = 7 ∧
    writtenBodyLength [0x68, 7, 7, 0x68, 8, 1, 0, 7, 8, 9, 0x21, 0x16] = 6 := by
  decide

end IEC101
